import Mathlib

/-!
Verification of the Discord/Cursor bridge daemon against its specification.

The definitions below are a shallow embedding of the TypeScript sources of
the `cursor-extension` package.  JavaScript `Map`s keyed by strings are
modelled as association lists in insertion order (one entry per key),
millisecond timestamps as `Nat`, JavaScript strings that are only compared
or truncated as Lean `String`s, and message bodies that are split at
code-unit granularity as `List Nat` of code units.  Fallible external calls
(the Discord API) are supplied as explicit oracle arguments, and writes to
the chat service appear in an explicit effect list.
-/

namespace Bridge

/-- Lookup in an association list, first match wins (JavaScript `Map.get`). -/
def lookupA {α : Type} (l : List (String × α)) (k : String) : Option α :=
  (l.find? (fun p => p.1 == k)).map (fun p => p.2)

/-- Update-or-append in an association list (JavaScript `Map.set`). -/
def setA {α : Type} (l : List (String × α)) (k : String) (v : α) : List (String × α) :=
  if l.any (fun p => p.1 == k) then
    l.map (fun p => if p.1 == k then (k, v) else p)
  else
    l ++ [(k, v)]

/-- Key removal in an association list (JavaScript `Map.delete`). -/
def delA {α : Type} (l : List (String × α)) (k : String) : List (String × α) :=
  l.filter (fun p => !(p.1 == k))

/-- A conversation-to-thread mapping, as persisted in
`discordBridge.chatMappings` (shared/types.ts, `ChatMapping`).  `createdAt`
and `claimedAt` are the parsed millisecond timestamps of the stored ISO
strings. -/
structure ChatMapping where
  chatId : String
  threadId : String
  workspaceName : String
  createdAt : Nat
  claimedAt : Option Nat
deriving DecidableEq

/-- The registry of mappings: a JavaScript `Map` from chat id to mapping,
in insertion order. -/
def getChatMapping (ms : List ChatMapping) (chatId : String) : Option ChatMapping :=
  ms.find? (fun m => m.chatId == chatId)

/-- `setChatMapping` / `mappings.set(mapping.chatId, mapping)` followed by a
save (discordClient.ts, `setChatMapping`). -/
def setChatMapping (ms : List ChatMapping) (m : ChatMapping) : List ChatMapping :=
  if ms.any (fun x => x.chatId == m.chatId) then
    ms.map (fun x => if x.chatId == m.chatId then m else x)
  else
    ms ++ [m]

/-- First mapping bound to a given thread id (discordClient.ts,
`getMappingForThread`). -/
def getMappingForThread (ms : List ChatMapping) (threadId : String) : Option ChatMapping :=
  ms.find? (fun m => m.threadId == threadId)

/-- `markMappingClaimed` (discordClient.ts): set `claimedAt` to now iff the
mapping exists and `claimedAt` is absent; otherwise leave the registry
untouched. -/
def markMappingClaimed (ms : List ChatMapping) (chatId : String) (now : Nat) :
    List ChatMapping :=
  match getChatMapping ms chatId with
  | some m =>
      if m.claimedAt = none then
        setChatMapping ms { m with claimedAt := some now }
      else ms
  | none => ms

/-- `getRecentUnclaimedMapping(freshnessMs)` (discordClient.ts): the
unclaimed mapping of greatest `createdAt` among those whose age
`now - createdAt` does not exceed `freshnessMs`.  The accumulator pair
mirrors the loop variables `latest` / `latestTime` (initially
`undefined` / `0`), and `createdTime > latestTime` is the strict
comparison from the source. -/
def recentUnclaimedGo (now freshnessMs : Nat) :
    List ChatMapping → Option ChatMapping → Nat → Option ChatMapping
  | [], latest, _ => latest
  | m :: rest, latest, latestTime =>
      if m.claimedAt.isSome then
        recentUnclaimedGo now freshnessMs rest latest latestTime
      else if now - m.createdAt > freshnessMs then
        recentUnclaimedGo now freshnessMs rest latest latestTime
      else if m.createdAt > latestTime then
        recentUnclaimedGo now freshnessMs rest (some m) m.createdAt
      else
        recentUnclaimedGo now freshnessMs rest latest latestTime

def getRecentUnclaimedMapping (now freshnessMs : Nat) (ms : List ChatMapping) :
    Option ChatMapping :=
  recentUnclaimedGo now freshnessMs ms none 0

/-- A Discord thread as far as the bridge observes it. -/
structure Thread where
  id : String
  name : String
  archived : Bool
  autoArchiveDuration : Nat
deriving DecidableEq

/-- `client.channels.fetch(threadId)` restricted to threads: `none` models
both an unknown channel (the thrown error) and a non-thread channel. -/
def fetchThread (ts : List Thread) (threadId : String) : Option Thread :=
  ts.find? (fun t => t.id == threadId)

/-- Writes to the chat service performed by the client, in order. -/
inductive Effect
  | createdThread (threadId name : String)
  | invitedUsers (threadId : String)
  | postedWelcome (threadId : String)
  | renamedThread (threadId name : String)
  | setArchived (threadId : String) (archived : Bool)
deriving DecidableEq

/-- The state touched by thread creation: the selected channel, the
fetchable threads, the mapping registry and the activity records. -/
structure DiscordWorld where
  hasChannel : Bool
  threads : List Thread
  mappings : List ChatMapping
  threadLastActivity : List (String × Nat)
deriving DecidableEq

structure CreateThreadParams where
  chatId : String
  workspaceName : String
  name : Option String
deriving DecidableEq

structure CreateThreadResult where
  success : Bool
  threadId : Option String
  threadName : Option String
  error : Option String
deriving DecidableEq

/-- `generateThreadName` (discordClient.ts): truncate a provided name to
100 units; an absent or empty (falsy) name yields `none`. -/
def generateThreadName (name : Option String) : Option String :=
  match name with
  | some s => if s == "" then none else some (s.take 100)
  | none => none

/-- `updateThreadActivity` (discordClient.ts). -/
def updateThreadActivity (w : DiscordWorld) (threadId : String) (now : Nat) :
    DiscordWorld :=
  { w with threadLastActivity := setA w.threadLastActivity threadId now }

/-- `createThread` (discordClient.ts).  `newId` is the thread id Discord
would allocate and `createOk` whether the Discord-side creation call
succeeds; both are oracle inputs. -/
def createThread (w : DiscordWorld) (now : Nat) (newId : String) (createOk : Bool)
    (p : CreateThreadParams) : CreateThreadResult × DiscordWorld × List Effect :=
  if !w.hasChannel then
    ({ success := false, threadId := none, threadName := none,
       error := some "No channel connected" }, w, [])
  else
    match getChatMapping w.mappings p.chatId with
    | some m =>
        match fetchThread w.threads m.threadId with
        | some t =>
            ({ success := true, threadId := some m.threadId,
               threadName := some t.name, error := none }, w, [])
        | none => createThreadFresh w now newId createOk p
    | none => createThreadFresh w now newId createOk p
where
  /-- The fall-through path of `createThread`: name check, Discord-side
  creation, mapping write, activity write, invites and welcome message. -/
  createThreadFresh (w : DiscordWorld) (now : Nat) (newId : String)
      (createOk : Bool) (p : CreateThreadParams) :
      CreateThreadResult × DiscordWorld × List Effect :=
    match generateThreadName p.name with
    | none =>
        ({ success := false, threadId := none, threadName := none,
           error := some "No thread name provided. A name is required to create a thread." },
         w, [])
    | some threadName =>
        if !createOk then
          ({ success := false, threadId := none, threadName := none,
             error := some "create failed" }, w, [])
        else
          let t : Thread :=
            { id := newId, name := threadName, archived := false,
              autoArchiveDuration := 10080 }
          let w1 : DiscordWorld :=
            { w with
                threads := w.threads ++ [t]
                mappings := setChatMapping w.mappings
                  { chatId := p.chatId, threadId := newId,
                    workspaceName := p.workspaceName, createdAt := now,
                    claimedAt := none } }
          let w2 := updateThreadActivity w1 newId now
          ({ success := true, threadId := some newId,
             threadName := some threadName, error := none }, w2,
           [Effect.createdThread newId threadName, Effect.invitedUsers newId,
            Effect.postedWelcome newId])

/-! ### Message splitting (discordClient.ts, `splitMessage`)

JavaScript strings are modelled as lists of code units (`List Nat`), so
`length`, `substring`, `lastIndexOf` and `trimStart` act exactly on code
units as in the source.  Unit 10 is the newline and unit 32 the space. -/

def DISCORD_MAX_MESSAGE_LENGTH : Nat := 2000

/-- The code units removed by JavaScript `String.prototype.trimStart`
(WhiteSpace and LineTerminator productions). -/
def isJsWhitespace (u : Nat) : Bool :=
  u == 9 || u == 10 || u == 11 || u == 12 || u == 13 || u == 32 ||
  u == 160 || u == 5760 || (8192 ≤ u && u ≤ 8202) || u == 8232 ||
  u == 8233 || u == 8239 || u == 8287 || u == 12288 || u == 65279

/-- Downward scan implementing `String.prototype.lastIndexOf(unit, pos)`:
the greatest index `i ≤ pos` with `s[i] = u`, if any.  `lastIndexScan s u
(pos+1)` inspects indices `pos, pos-1, …, 0`. -/
def lastIndexScan (s : List Nat) (u : Nat) : Nat → Option Nat
  | 0 => none
  | n + 1 => if s[n]? = some u then some n else lastIndexScan s u n

def lastIndexFrom (s : List Nat) (u : Nat) (pos : Nat) : Option Nat :=
  lastIndexScan s u (pos + 1)

/-- Fallback stage of the split-index computation: a space break, then the
hard cut at the limit (discordClient.ts, `splitMessage` loop body). -/
def spaceOrHardIndex (r : List Nat) : Nat :=
  match lastIndexFrom r 32 DISCORD_MAX_MESSAGE_LENGTH with
  | some i =>
      if i < DISCORD_MAX_MESSAGE_LENGTH / 2 then DISCORD_MAX_MESSAGE_LENGTH else i
  | none => DISCORD_MAX_MESSAGE_LENGTH

/-- The split index chosen for a remainder longer than the limit: the last
newline not before half the limit, else the last space not before half the
limit, else the limit itself. -/
def computeSplitIndex (r : List Nat) : Nat :=
  match lastIndexFrom r 10 DISCORD_MAX_MESSAGE_LENGTH with
  | some i =>
      if i < DISCORD_MAX_MESSAGE_LENGTH / 2 then spaceOrHardIndex r else i
  | none => spaceOrHardIndex r

/-- The `while (remaining.length > 0)` loop of `splitMessage`.  The fuel is
an upper bound on the number of iterations; every iteration removes at
least half the limit, so any fuel of at least `remaining.length` is never
exhausted. -/
def splitGo : Nat → List Nat → List (List Nat)
  | 0, _ => []
  | fuel + 1, remaining =>
      if remaining.length = 0 then []
      else if remaining.length ≤ DISCORD_MAX_MESSAGE_LENGTH then [remaining]
      else
        let si := computeSplitIndex remaining
        remaining.take si ::
          splitGo fuel ((remaining.drop si).dropWhile isJsWhitespace)

/-- `splitMessage` (discordClient.ts). -/
def splitMessage (content : List Nat) : List (List Nat) :=
  if content.length ≤ DISCORD_MAX_MESSAGE_LENGTH then [content]
  else splitGo content.length content

/-! ### Interaction manager, message handling and archive detection
(discordClient.ts).

The mutable fields of `DiscordClientManager` touched by the event handlers
are gathered into `BridgeState`.  Handler outcomes that leave the process —
sink resolutions of `askQuestion` promises, Discord replies, reactions and
message edits, and the SEND_TO_CHAT keystroke forwarding — are reported as
`Action`s (the interpolated reply texts of the source are abbreviated to
constants; only the statically fixed "expired" reply is kept verbatim). -/

/-- Buffer for detecting manual vs auto archive (5 minutes). -/
def ARCHIVE_DETECTION_BUFFER_MS : Nat := 5 * 60 * 1000

structure AskQuestionResult where
  success : Bool
  responseType : Option String
  selectedOptionIds : Option (List String)
  textResponse : Option String
  error : Option String
deriving DecidableEq

/-- A pending question awaiting user response (discordClient.ts,
`PendingQuestion`); the completion sink and timer handle live outside the
state and appear through `Action.sinkResolved` and the
`questionTimeout` event. -/
structure PendingQuestion where
  threadId : String
  messageId : String
  question : String
  options : List (String × String)
  allowMultiple : Bool
  selectedOptions : List String
deriving DecidableEq

structure BridgeState where
  mappings : List ChatMapping
  threadLastActivity : List (String × Nat)
  explicitlyArchivedThreadIds : List String
  activeDiscordConversations : List (String × (String × Nat))
  pendingQuestions : List PendingQuestion
deriving DecidableEq

inductive Action
  | sinkResolved (messageId : String) (result : AskQuestionResult)
  | ephemeralReply (text : String)
  | reactedSuccess (threadId : String)
  | repliedFailure (threadId : String)
  | forwardedToCursor (chatId message threadId : String)
  | deferredUpdate
  | editedMessage (messageId : String)
deriving DecidableEq

/-- JavaScript `Set.add` on a list-modelled set. -/
def addSet (l : List String) (x : String) : List String :=
  if l.contains x then l else l ++ [x]

/-- `markExplicitlyArchived` (discordClient.ts; persistence elided). -/
def markExplicitlyArchived (s : BridgeState) (threadId : String) : BridgeState :=
  { s with explicitlyArchivedThreadIds :=
      addSet s.explicitlyArchivedThreadIds threadId }

/-- `clearExplicitArchive` (discordClient.ts). -/
def clearExplicitArchive (s : BridgeState) (threadId : String) : BridgeState :=
  { s with explicitlyArchivedThreadIds :=
      s.explicitlyArchivedThreadIds.filter (fun x => !(x == threadId)) }

/-- `resolveQuestion` (discordClient.ts): clear the timeout, delete the
pending entry, re-render the prompt as an answered list, invoke the sink. -/
def resolveQuestion (s : BridgeState) (pq : PendingQuestion)
    (result : AskQuestionResult) : BridgeState × List Action :=
  ({ s with pendingQuestions :=
        s.pendingQuestions.filter (fun q => !(q.messageId == pq.messageId)) },
   [Action.editedMessage pq.messageId, Action.sinkResolved pq.messageId result])

/-- `checkForQuestionResponse`'s search (discordClient.ts): the first
pending question on the thread, if any. -/
def findQuestionForThread (s : BridgeState) (threadId : String) :
    Option PendingQuestion :=
  s.pendingQuestions.find? (fun q => q.threadId == threadId)

/-- `handleMessage` (discordClient.ts).  `sendOk` is the outcome of the
SEND_TO_CHAT command that drives the keystroke actuator. -/
def handleMessage (s : BridgeState) (authorIsBot : Bool) (authorId : String)
    (threadOf : Option String) (content : String) (now : Nat) (sendOk : Bool) :
    BridgeState × List Action :=
  if authorIsBot then (s, [])
  else
    match threadOf with
    | none => (s, [])
    | some tid =>
        match getMappingForThread s.mappings tid with
        | none => (s, [])
        | some mapping =>
            let s1 : BridgeState :=
              { s with threadLastActivity := setA s.threadLastActivity tid now }
            let s2 := clearExplicitArchive s1 tid
            match findQuestionForThread s2 tid with
            | some pq =>
                let r := resolveQuestion s2 pq
                  { success := true, responseType := some "text",
                    selectedOptionIds := none, textResponse := some content,
                    error := none }
                (r.1, r.2 ++ [Action.reactedSuccess tid])
            | none =>
                let convos := setA s2.activeDiscordConversations tid (authorId, now)
                let s3 : BridgeState := { s2 with activeDiscordConversations := convos }
                (s3,
                 if sendOk then
                   [Action.forwardedToCursor mapping.chatId content tid,
                    Action.reactedSuccess tid]
                 else
                   [Action.forwardedToCursor mapping.chatId content tid,
                    Action.repliedFailure tid])

/-- Parse a button custom id of the form `ask_q_(messageId)_(action)`
(discordClient.ts, `handleInteraction` preamble). -/
def parseAskCustomId (customId : String) : Option (String × String) :=
  if !(customId.startsWith "ask_q_") then none
  else
    let parts := customId.splitOn "_"
    if parts.length < 4 then none
    else some (parts.getD 2 "", String.intercalate "_" (parts.drop 3))

/-- `handleInteraction` (discordClient.ts). -/
def handleInteraction (s : BridgeState) (customId : String) :
    BridgeState × List Action :=
  match parseAskCustomId customId with
  | none => (s, [])
  | some (messageId, action) =>
      match s.pendingQuestions.find? (fun q => q.messageId == messageId) with
      | none =>
          (s, [Action.ephemeralReply
            "This question has expired or already been answered."])
      | some pending =>
          if pending.allowMultiple then
            if action == "submit" then
              let r := resolveQuestion s pending
                { success := true, responseType := some "option",
                  selectedOptionIds := some pending.selectedOptions,
                  textResponse := none, error := none }
              (r.1, r.2 ++ [Action.ephemeralReply "Selection submitted."])
            else
              let toggled :=
                if pending.selectedOptions.contains action then
                  pending.selectedOptions.filter (fun x => !(x == action))
                else pending.selectedOptions ++ [action]
              let updated := s.pendingQuestions.map (fun q =>
                if q.messageId == messageId then
                  { q with selectedOptions := toggled }
                else q)
              let s' : BridgeState := { s with pendingQuestions := updated }
              (s', [Action.editedMessage messageId, Action.deferredUpdate])
          else
            let pending' :=
              { pending with selectedOptions := addSet pending.selectedOptions action }
            let r := resolveQuestion s pending'
              { success := true, responseType := some "option",
                selectedOptionIds := some [action], textResponse := none,
                error := none }
            (r.1, r.2 ++ [Action.ephemeralReply "Option selected."])

/-- The `setTimeout` body installed by `askQuestion` (discordClient.ts):
when the question is still pending at expiry, delete it, disable the
buttons and resolve the sink with a timeout error. -/
def handleQuestionTimeout (s : BridgeState) (messageId : String) :
    BridgeState × List Action :=
  match s.pendingQuestions.find? (fun q => q.messageId == messageId) with
  | none => (s, [])
  | some _ =>
      ({ s with pendingQuestions :=
            s.pendingQuestions.filter (fun q => !(q.messageId == messageId)) },
       [Action.editedMessage messageId,
        Action.sinkResolved messageId
          { success := false, responseType := none, selectedOptionIds := none,
            textResponse := none,
            error := some "Question timed out waiting for response" }])

/-- JavaScript `x || d` for an optional number (`0` and `undefined` both
fall back). -/
def jsOrDefault (o : Option Nat) (d : Nat) : Nat :=
  match o with
  | some v => if v == 0 then d else v
  | none => d

/-- The manual-vs-inactivity test of `handleThreadArchived`
(discordClient.ts): archived strictly before `autoArchiveDuration` minus
the 5-minute buffer counts as manual. -/
def archiveIsManual (activity : List (String × Nat)) (threadId : String)
    (autoArchiveDuration : Option Nat) (createdTimestamp : Option Nat)
    (now : Nat) : Bool :=
  let autoArchiveDurationMs := jsOrDefault autoArchiveDuration 1440 * 60 * 1000
  let threshold := autoArchiveDurationMs - ARCHIVE_DETECTION_BUFFER_MS
  let lastActivity := (lookupA activity threadId).getD (createdTimestamp.getD now)
  let timeSinceActivity := now - lastActivity
  decide (timeSinceActivity < threshold)

/-- `handleThreadArchived` (discordClient.ts). -/
def handleThreadArchived (s : BridgeState) (threadId : String)
    (autoArchiveDuration : Option Nat) (createdTimestamp : Option Nat)
    (now : Nat) : BridgeState :=
  if archiveIsManual s.threadLastActivity threadId autoArchiveDuration
      createdTimestamp now then
    markExplicitlyArchived s threadId
  else s

/-- `handleThreadUpdate` (discordClient.ts). -/
def handleThreadUpdate (s : BridgeState) (threadId : String)
    (oldArchived newArchived : Bool) (autoArchiveDuration : Option Nat)
    (createdTimestamp : Option Nat) (now : Nat) : BridgeState × List Action :=
  if oldArchived == newArchived then (s, [])
  else
    match getMappingForThread s.mappings threadId with
    | none => (s, [])
    | some _ =>
        if !oldArchived && newArchived then
          (handleThreadArchived s threadId autoArchiveDuration createdTimestamp now,
           [])
        else if oldArchived && !newArchived then
          (clearExplicitArchive s threadId, [])
        else (s, [])

/-- The gateway events relevant to the handlers above. -/
inductive BridgeEvent
  | message (authorIsBot : Bool) (authorId : String) (threadOf : Option String)
      (content : String) (now : Nat) (sendOk : Bool)
  | buttonClick (customId : String)
  | questionTimeout (messageId : String)
  | threadUpdate (threadId : String) (oldArchived newArchived : Bool)
      (autoArchiveDuration : Option Nat) (createdTimestamp : Option Nat)
      (now : Nat)
deriving DecidableEq

def stepEvent (s : BridgeState) : BridgeEvent → BridgeState × List Action
  | .message bot author tid content now sendOk =>
      handleMessage s bot author tid content now sendOk
  | .buttonClick cid => handleInteraction s cid
  | .questionTimeout mid => handleQuestionTimeout s mid
  | .threadUpdate tid o n aad cts now =>
      handleThreadUpdate s tid o n aad cts now

def runEvents (s : BridgeState) : List BridgeEvent → BridgeState × List Action
  | [] => (s, [])
  | e :: es =>
      let r1 := stepEvent s e
      let r2 := runEvents r1.1 es
      (r2.1, r1.2 ++ r2.2)

def isSinkFor (messageId : String) : Action → Bool
  | .sinkResolved m _ => m == messageId
  | _ => false

/-- Number of sink invocations for a given question over an action trace. -/
def sinkCount (messageId : String) (acts : List Action) : Nat :=
  (acts.filter (isSinkFor messageId)).length

/-- Whether an Open Question with this message id is still pending. -/
def hasPending (s : BridgeState) (messageId : String) : Bool :=
  s.pendingQuestions.any (fun q => q.messageId == messageId)

/-! ### Name-sync watcher (nameSyncWatcher.ts)

The cache, the current-name table and the Discord-name table are
association lists from chat id to name, in insertion order like the JS
`Map`s they model.  Rename attempts are an oracle
`renameOutcome : String → RenameOutcome` giving, per thread id, the
outcome `renameThread` would report. -/

def TEMPORARY_THREAD_NAME : String := "New chat..."

def staleMarker (chatId : String) : String := "__STALE__" ++ chatId

/-- `name.startsWith(STALE_MARKER)`: the first nine characters are the
nine characters of `__STALE__`. -/
def isStaleName (s : String) : Bool := s.data.take 9 == "__STALE__".data

inductive RenameOutcome
  | ok
  | notFound
  | otherFailure
deriving DecidableEq

/-- JS `this.cachedNames.get(chatId)?.startsWith(STALE_MARKER)`:
`undefined` is falsy. -/
def cacheIsStaleAt (cache : List (String × String)) (chatId : String) : Bool :=
  match lookupA cache chatId with
  | some n => isStaleName n
  | none => false

/-- The mapping loop of `initializeCacheFromDiscord`, one entry at a
time.  A mapping entry is `(chatId, threadId)`. -/
def initCacheGo (discordNames : List (String × String)) :
    List (String × String) → List (String × String) → List (String × String)
  | cache, [] => cache
  | cache, entry :: rest =>
      initCacheGo discordNames
        (match lookupA discordNames entry.1 with
         | some _ => cache
         | none => setA cache entry.1 (staleMarker entry.1)) rest

/-- `initializeCacheFromDiscord`: seed the cache with the thread names
fetched from Discord, then stamp the stale marker for every mapping whose
thread could not be fetched. -/
def initializeCacheFromDiscord (mappings : List (String × String))
    (discordNames : List (String × String)) : List (String × String) :=
  initCacheGo discordNames discordNames mappings

/-- `needsSync` from `checkAndSyncNames`:
`nameChanged || cachedName === TEMPORARY_THREAD_NAME || !cachedName`,
with JS falsiness of `undefined` and of the empty string spelled out. -/
def needsSyncB (cachedName : Option String) (currentName : String) : Bool :=
  match cachedName with
  | none => true
  | some s => !(s == currentName) || (s == TEMPORARY_THREAD_NAME) || (s == "")

/-- One iteration of the mapping loop of `checkAndSyncNames`; the
accumulator holds the cache and the rename calls `(threadId, newName)`
issued so far.  On success and on a not-found failure the cached name is
set to the current name; on any other failure the cache is untouched. -/
def syncOne (currentNames : List (String × String))
    (renameOutcome : String → RenameOutcome)
    (acc : List (String × String) × List (String × String))
    (entry : String × String) :
    List (String × String) × List (String × String) :=
  match lookupA currentNames entry.1 with
  | none => acc
  | some currentName =>
      if currentName == "" then acc
      else if cacheIsStaleAt acc.1 entry.1 then acc
      else if needsSyncB (lookupA acc.1 entry.1) currentName then
        match renameOutcome entry.2 with
        | RenameOutcome.ok =>
            (setA acc.1 entry.1 currentName, acc.2 ++ [(entry.2, currentName)])
        | RenameOutcome.notFound =>
            (setA acc.1 entry.1 currentName, acc.2 ++ [(entry.2, currentName)])
        | RenameOutcome.otherFailure =>
            (acc.1, acc.2 ++ [(entry.2, currentName)])
      else acc

/-- The mapping loop of `checkAndSyncNames`, one entry at a time. -/
def syncLoopGo (currentNames : List (String × String))
    (renameOutcome : String → RenameOutcome) :
    List (String × String) × List (String × String) → List (String × String) →
    List (String × String) × List (String × String)
  | acc, [] => acc
  | acc, entry :: rest =>
      syncLoopGo currentNames renameOutcome
        (syncOne currentNames renameOutcome acc entry) rest

/-- The closing loop of `checkAndSyncNames`: refresh the cache from the
current names without overwriting stale markers. -/
def refreshCache : List (String × String) → List (String × String) →
    List (String × String)
  | cache, [] => cache
  | cache, entry :: rest =>
      refreshCache
        (if cacheIsStaleAt cache entry.1 then cache else setA cache entry.1 entry.2)
        rest

/-- `checkAndSyncNames`: the new cache and the rename calls issued, in
order. -/
def checkAndSyncNames (mappings : List (String × String))
    (currentNames : List (String × String))
    (cache : List (String × String))
    (renameOutcome : String → RenameOutcome) :
    List (String × String) × List (String × String) :=
  let afterLoop := syncLoopGo currentNames renameOutcome (cache, []) mappings
  (refreshCache afterLoop.1 currentNames, afterLoop.2)

/-! ### Implicit-archive check (cursorStorage.ts watcher tick) and
`ensureActiveThreadsOpen` (discordClient.ts) -/

structure RankedChat where
  chatId : String
  lastUpdatedAt : Option Nat
  position : Nat
deriving DecidableEq

/-- JS truthiness of `chat.lastUpdatedAt`: `undefined` and `0` are falsy. -/
def truthyTimestamp (o : Option Nat) : Bool :=
  match o with
  | some v => decide (v ≠ 0)
  | none => false

def isTrulyActive (implicitArchiveCount implicitArchiveMs now : Nat)
    (chat : RankedChat) : Bool :=
  decide (chat.position < implicitArchiveCount)
    || (truthyTimestamp chat.lastUpdatedAt
        && decide (now - chat.lastUpdatedAt.getD 0 < implicitArchiveMs))

/-- The truly-active chat ids computed on every 30th watcher tick. -/
def trulyActiveChatIds (implicitArchiveCount implicitArchiveMs now : Nat)
    (rankedChats : List RankedChat) : List String :=
  (rankedChats.filter (isTrulyActive implicitArchiveCount implicitArchiveMs now)).map
    (fun c => c.chatId)

/-- `thread.setArchived(false)` on the fetched thread list. -/
def unarchiveInList (ts : List Thread) (threadId : String) : List Thread :=
  ts.map (fun th => if th.id == threadId then { th with archived := false } else th)

/-- One iteration of `ensureActiveThreadsOpen`; the accumulator is the
reopen count and the thread list. -/
def ensureOne (mappings : List ChatMapping) (explicitlyArchived : List String)
    (acc : Nat × List Thread) (chatId : String) : Nat × List Thread :=
  match getChatMapping mappings chatId with
  | none => acc
  | some mapping =>
      if explicitlyArchived.contains mapping.threadId then acc
      else
        match fetchThread acc.2 mapping.threadId with
        | none => acc
        | some t =>
            if t.archived then (acc.1 + 1, unarchiveInList acc.2 mapping.threadId)
            else acc

/-- `ensureActiveThreadsOpen`: reopen the archived mapped threads of the
given conversations, returning the reopen count and the updated thread
list. -/
def ensureActiveThreadsOpen (mappings : List ChatMapping)
    (explicitlyArchived : List String) (threads : List Thread)
    (activeChatIds : List String) : Nat × List Thread :=
  activeChatIds.foldl (ensureOne mappings explicitlyArchived) (0, threads)

/-! ### Thread-id resolution (extension.ts, RESOLVE_THREAD_ID handler)

The handler runs three strategies in order: force-create for a pending
composer, most recent unclaimed mapping under 30 s, then polling for a
new unclaimed mapping.  Oracle inputs model the IDE name lookups
(`getChatName`), the Discord-side creation outcome, and the registry
snapshots seen by the polls of `waitForNewUnclaimedMapping`. -/

inductive ThreadResolutionMethod
  | latest_unclaimed
  | waited_for_new
deriving DecidableEq

structure ResolveThreadIdResult where
  success : Bool
  threadId : Option String
  chatId : Option String
  method : Option ThreadResolutionMethod
  error : Option String
deriving DecidableEq

/-- JS `a || b` on an optional string: `undefined` and `""` are falsy. -/
def jsOrString (o : Option String) (dflt : String) : String :=
  match o with
  | some s => if s == "" then dflt else s
  | none => dflt

/-- `createThreadForChat` (cursorStorage.ts) with the name already
resolved to a truthy string: bail out when Discord is not ready, then
delegate to `createThread` and surface the thread id on success. -/
def createThreadForChat (w : DiscordWorld) (now : Nat) (newId : String)
    (createOk ready : Bool) (workspaceName chatId chatName : String) :
    Option String × DiscordWorld :=
  if !ready then (none, w)
  else if chatName == "" then (none, w)
  else
    let r := createThread w now newId createOk
      { chatId := chatId, workspaceName := workspaceName, name := some chatName }
    if r.1.success then
      match r.1.threadId with
      | some tid => (some tid, r.2.1)
      | none => (none, r.2.1)
    else (none, r.2.1)

/-- `waitForNewUnclaimedMapping` (discordClient.ts): poll
`getRecentUnclaimedMapping` over the registry snapshots seen every
200 ms, returning the first hit together with its snapshot. -/
def waitForNewUnclaimedMapping (freshnessMs : Nat)
    (snapshots : List (Nat × List ChatMapping)) :
    Option (Nat × List ChatMapping × ChatMapping) :=
  snapshots.findSome? (fun s =>
    (getRecentUnclaimedMapping s.1 freshnessMs s.2).map (fun m => (s.1, s.2, m)))

/-- Oracle inputs of one RESOLVE_THREAD_ID call.  `immediateName` is the
chat name at the immediate creation attempt, `waitedName` the first
truthy name observed by `waitForPendingComposerThread` (`none` on
timeout), `snapshots` the `(now, registry)` pairs seen by the strategy-3
polls, and `claimNow` the time `markMappingClaimed` stamps. -/
structure ResolveDeps where
  pendingComposerId : Option String
  immediateName : Option String
  waitedName : Option String
  ready : Bool
  createOk1 : Bool
  createOk2 : Bool
  newId1 : String
  newId2 : String
  workspaceName : String
  now : Nat
  claimNow : Nat
  snapshots : List (Nat × List ChatMapping)
deriving DecidableEq

/-- Strategies 2 and 3 of the RESOLVE_THREAD_ID handler. -/
def resolveStrategy23 (w : DiscordWorld) (d : ResolveDeps) :
    ResolveThreadIdResult × DiscordWorld :=
  match getRecentUnclaimedMapping d.now 30000 w.mappings with
  | some m =>
      let w' := { w with mappings := markMappingClaimed w.mappings m.chatId d.claimNow }
      ({ success := true, threadId := some m.threadId, chatId := some m.chatId,
         method := some ThreadResolutionMethod.latest_unclaimed, error := none }, w')
  | none =>
      match waitForNewUnclaimedMapping 30000 d.snapshots with
      | some pm =>
          let w' := { w with mappings := markMappingClaimed pm.2.1 pm.2.2.chatId d.claimNow }
          ({ success := true, threadId := some pm.2.2.threadId,
             chatId := some pm.2.2.chatId,
             method := some ThreadResolutionMethod.waited_for_new, error := none }, w')
      | none =>
          ({ success := false, threadId := none, chatId := none, method := none,
             error := some "Could not resolve thread ID: no mappings available" }, w)

/-- The RESOLVE_THREAD_ID handler (extension.ts lines 280-337).  Strategy
1 force-creates a thread for a pending composer (immediately, then after
waiting for a name), falling through to strategies 2/3 on failure; every
successful return marks the mapping claimed first. -/
def resolveThreadId (w : DiscordWorld) (d : ResolveDeps) :
    ResolveThreadIdResult × DiscordWorld :=
  match d.pendingComposerId with
  | none => resolveStrategy23 w d
  | some p =>
      let threadName := jsOrString d.immediateName "New conversation"
      let r1 := createThreadForChat w d.now d.newId1 d.createOk1 d.ready
        d.workspaceName p threadName
      match r1.1 with
      | some tid =>
          let w' := { r1.2 with
            mappings := markMappingClaimed r1.2.mappings p d.claimNow }
          ({ success := true, threadId := some tid, chatId := some p,
             method := some ThreadResolutionMethod.waited_for_new, error := none }, w')
      | none =>
          match d.waitedName with
          | none => resolveStrategy23 r1.2 d
          | some nm =>
              let r2 := createThreadForChat r1.2 d.now d.newId2 d.createOk2 d.ready
                d.workspaceName p nm
              match r2.1 with
              | some tid =>
                  let w' := { r2.2 with
                    mappings := markMappingClaimed r2.2.mappings p d.claimNow }
                  ({ success := true, threadId := some tid, chatId := some p,
                     method := some ThreadResolutionMethod.waited_for_new,
                     error := none }, w')
              | none => resolveStrategy23 r2.2 d

/-! ### Health endpoint (httpServer.ts, `handleHealth`) -/

inductive JsonValue
  | str (s : String)
  | bool (b : Bool)
  | arr (a : List String)
deriving DecidableEq

/-- Inputs `handleHealth` reads: `vscode.workspace.name` and the
connection flag reported by the workspace part (`none` when that part is
unavailable and the command throws). -/
structure HealthDeps where
  workspaceName : Option String
  discordStatusConnected : Option Bool
deriving DecidableEq

/-- `handleHealth`: HTTP status code and JSON object body, as the
association list of fields in the order the code writes them. -/
def handleHealth (deps : HealthDeps) : Nat × List (String × JsonValue) :=
  let discordConnected := deps.discordStatusConnected.getD false
  let wsName :=
    match deps.workspaceName with
    | some n => if n == "" then "unnamed" else n
    | none => "unnamed"
  (200,
    [("status", JsonValue.str "ok"),
     ("workspaceName", JsonValue.str wsName),
     ("discordConnected", JsonValue.bool discordConnected)])

/-! ### Association-list lemmas

Generic facts about the update-or-append pattern shared by `setChatMapping`
and `setA`, phrased over an arbitrary key projection. -/

lemma find?_map_replace_self {β : Type} (key : β → String) (k : String) (r : β)
    (hr : key r = k) (ms : List β) (h : ms.any (fun x => key x == k) = true) :
    List.find? (fun x => key x == k) (ms.map (fun x => if key x == k then r else x))
      = some r := by
  induction ms with
  | nil => simp at h
  | cons x rest ih =>
      rw [List.map_cons]
      by_cases hx : (key x == k) = true
      · rw [if_pos hx]
        exact List.find?_cons_of_pos _ (by simp [hr])
      · rw [if_neg (by simp [hx]), List.find?_cons_of_neg _ (by simpa using hx)]
        apply ih
        simp only [List.any_cons, Bool.or_eq_true] at h
        rcases h with h | h
        · exact absurd h hx
        · exact h

lemma find?_map_replace_other {β : Type} (key : β → String) (k c : String) (r : β)
    (hr : key r = k) (hne : c ≠ k) (ms : List β) :
    List.find? (fun x => key x == c) (ms.map (fun x => if key x == k then r else x))
      = List.find? (fun x => key x == c) ms := by
  induction ms with
  | nil => simp
  | cons x rest ih =>
      rw [List.map_cons]
      by_cases hx : (key x == k) = true
      · rw [if_pos hx]
        have hxk : key x = k := by simpa using hx
        have hrc : ((fun x => key x == c) r) = false := by simp [hr, Ne.symm hne]
        have hxc : ((fun x => key x == c) x) = false := by simp [hxk, Ne.symm hne]
        rw [List.find?_cons_of_neg _ (by simp [hrc]),
            List.find?_cons_of_neg _ (by simp [hxc])]
        exact ih
      · rw [if_neg (by simp [hx])]
        by_cases hxc : (key x == c) = true
        · have h1 : List.find? (fun x => key x == c)
              (x :: List.map (fun y => if key y == k then r else y) rest) = some x :=
            List.find?_cons_of_pos _ hxc
          have h2 : List.find? (fun x => key x == c) (x :: rest) = some x :=
            List.find?_cons_of_pos _ hxc
          rw [h1, h2]
        · have h1 : List.find? (fun x => key x == c)
              (x :: List.map (fun y => if key y == k then r else y) rest)
              = List.find? (fun x => key x == c)
                  (List.map (fun y => if key y == k then r else y) rest) :=
            List.find?_cons_of_neg _ (by simpa using hxc)
          have h2 : List.find? (fun x => key x == c) (x :: rest)
              = List.find? (fun x => key x == c) rest :=
            List.find?_cons_of_neg _ (by simpa using hxc)
          rw [h1, h2]
          exact ih

lemma find?_append_single_self {β : Type} (key : β → String) (k : String) (r : β)
    (hr : key r = k) (ms : List β) (h : ms.any (fun x => key x == k) = false) :
    List.find? (fun x => key x == k) (ms ++ [r]) = some r := by
  rw [List.find?_append]
  have hnone : List.find? (fun x => key x == k) ms = none := by
    rw [List.find?_eq_none]
    intro x hx
    intro hc
    have : ms.any (fun x => key x == k) = true := List.any_eq_true.mpr ⟨x, hx, hc⟩
    rw [this] at h
    exact Bool.true_eq_false.mp h
  rw [hnone]
  have hfr : List.find? (fun x => key x == k) [r] = some r :=
    List.find?_cons_of_pos _ (by simp [hr])
  rw [hfr]
  rfl

lemma find?_append_single_other {β : Type} (key : β → String) (k c : String) (r : β)
    (hr : key r = k) (hne : c ≠ k) (ms : List β) :
    List.find? (fun x => key x == c) (ms ++ [r])
      = List.find? (fun x => key x == c) ms := by
  rw [List.find?_append]
  have hrf : List.find? (fun x => key x == c) [r] = none := by
    simp [List.find?_cons_of_neg, hr, Ne.symm hne]
  rw [hrf]
  cases List.find? (fun x => key x == c) ms <;> rfl

/-! ### Registry lemmas -/

lemma getChatMapping_setChatMapping_self (ms : List ChatMapping) (m : ChatMapping) :
    getChatMapping (setChatMapping ms m) m.chatId = some m := by
  unfold getChatMapping setChatMapping
  by_cases h : ms.any (fun x => x.chatId == m.chatId) = true
  · rw [if_pos h]
    exact find?_map_replace_self (fun x => x.chatId) m.chatId m rfl ms h
  · rw [if_neg h]
    exact find?_append_single_self (fun x => x.chatId) m.chatId m rfl ms
      (by simpa using h)

lemma getChatMapping_setChatMapping_other (ms : List ChatMapping) (m : ChatMapping)
    (c : String) (hne : c ≠ m.chatId) :
    getChatMapping (setChatMapping ms m) c = getChatMapping ms c := by
  unfold getChatMapping setChatMapping
  by_cases h : ms.any (fun x => x.chatId == m.chatId) = true
  · rw [if_pos h]
    exact find?_map_replace_other (fun x => x.chatId) m.chatId c m rfl hne ms
  · rw [if_neg h]
    exact find?_append_single_other (fun x => x.chatId) m.chatId c m rfl hne ms

lemma getChatMapping_chatId {ms : List ChatMapping} {c : String} {m : ChatMapping}
    (h : getChatMapping ms c = some m) : m.chatId = c := by
  have := List.find?_some h
  simpa using this

lemma markMappingClaimed_of_claimed {ms : List ChatMapping} {c : String}
    {m : ChatMapping} (tm : Nat) (hm : getChatMapping ms c = some m)
    (h : ¬ m.claimedAt = none) : markMappingClaimed ms c tm = ms := by
  unfold markMappingClaimed
  rw [hm]
  show (if m.claimedAt = none then _ else ms) = ms
  rw [if_neg h]

lemma markMappingClaimed_of_unclaimed {ms : List ChatMapping} {c : String}
    {m : ChatMapping} (tm : Nat) (hm : getChatMapping ms c = some m)
    (h : m.claimedAt = none) :
    markMappingClaimed ms c tm = setChatMapping ms { m with claimedAt := some tm } := by
  unfold markMappingClaimed
  rw [hm]
  show (if m.claimedAt = none then _ else ms) = _
  rw [if_pos h]

end Bridge

namespace Bridge

/-- Claim C8 (amended): `markMappingClaimed c` sets `claimed-at` to the
current time iff it is absent; a second call leaves the registry unchanged;
and `markMappingClaimed` itself never clears any mapping's set `claimed-at`
(only a wholesale `setChatMapping` replacement can remove it). -/
theorem claim_C8_markClaimed (ms : List ChatMapping) (c : String) (now now2 : Nat)
    (m : ChatMapping) (hm : getChatMapping ms c = some m) :
    (m.claimedAt = none →
      getChatMapping (markMappingClaimed ms c now) c
        = some { m with claimedAt := some now })
    ∧ (m.claimedAt.isSome = true → markMappingClaimed ms c now = ms)
    ∧ markMappingClaimed (markMappingClaimed ms c now) c now2
        = markMappingClaimed ms c now
    ∧ (∀ c' m' t, getChatMapping ms c' = some m' → m'.claimedAt = some t →
        ∃ m'', getChatMapping (markMappingClaimed ms c now) c' = some m''
          ∧ m''.claimedAt = some t) := by
  have hcid : m.chatId = c := getChatMapping_chatId hm
  have hset : ∀ tm : Nat, m.claimedAt = none →
      getChatMapping (markMappingClaimed ms c tm) c
        = some { m with claimedAt := some tm } := by
    intro tm hnone
    rw [markMappingClaimed_of_unclaimed tm hm hnone]
    have := getChatMapping_setChatMapping_self ms { m with claimedAt := some tm }
    simpa [hcid] using this
  have hkeep : ∀ tm : Nat, m.claimedAt.isSome = true →
      markMappingClaimed ms c tm = ms := by
    intro tm hsome
    exact markMappingClaimed_of_claimed tm hm (Option.isSome_iff_ne_none.mp hsome)
  refine ⟨hset now, hkeep now, ?_, ?_⟩
  · cases hca : m.claimedAt with
    | some t =>
        have hs : m.claimedAt.isSome = true := by rw [hca]; rfl
        rw [hkeep now hs]
        exact hkeep now2 hs
    | none =>
        have h1 := hset now hca
        exact markMappingClaimed_of_claimed now2 h1 (by simp)
  · intro c' m' t hm' ht
    by_cases hc : c' = c
    · subst hc
      rw [hm'] at hm
      have hmm : m' = m := by injection hm
      subst hmm
      refine ⟨m', ?_, ht⟩
      rw [hkeep now (by rw [ht]; rfl)]
      exact hm'
    · cases hca : m.claimedAt with
      | some s =>
          rw [markMappingClaimed_of_claimed now hm (by rw [hca]; simp)]
          exact ⟨m', hm', ht⟩
      | none =>
          rw [markMappingClaimed_of_unclaimed now hm hca,
              getChatMapping_setChatMapping_other ms _ c' (by simpa [hcid] using hc)]
          exact ⟨m', hm', ht⟩

/-- Witness for claim C8: a concrete registry with one unclaimed mapping;
the first `markMappingClaimed` stamps it. -/
theorem claim_C8_witness :
    getChatMapping
        (markMappingClaimed [⟨"c1", "t1", "ws", 100, none⟩] "c1" 200) "c1"
      = some ⟨"c1", "t1", "ws", 100, some 200⟩ := by
  have h := claim_C8_markClaimed [⟨"c1", "t1", "ws", 100, none⟩] "c1" 200 300
    ⟨"c1", "t1", "ws", 100, none⟩ (by decide)
  exact h.1 rfl

/-- Counterexample for claim C8 as stated: `setChatMapping` (the registry's
`put`) replaces a claimed mapping wholesale and thereby clears its
`claimed-at`, so it is not true that no registry operation ever clears a set
`claimed-at`. -/
theorem claim_C8_counterexample :
    ((getChatMapping [⟨"c1", "t1", "ws", 0, some 5⟩] "c1").bind
        (fun m => m.claimedAt)) = some 5
    ∧ ((getChatMapping
          (setChatMapping [⟨"c1", "t1", "ws", 0, some 5⟩]
            ⟨"c1", "t2", "ws", 100, none⟩) "c1").bind
        (fun m => m.claimedAt)) = none := by decide

/-- Claim C10: `createThread` is idempotent per conversation.  If a mapping
already exists for the chat id and its thread is still fetchable, the call
returns success with the existing thread id and the thread's current name,
performs no chat-service writes (no new thread, no welcome message) and
leaves the whole world, registry included, unchanged. -/
theorem claim_C10_createThread_idempotent (w : DiscordWorld) (now : Nat)
    (newId : String) (createOk : Bool) (p : CreateThreadParams)
    (m : ChatMapping) (t : Thread)
    (hch : w.hasChannel = true)
    (hm : getChatMapping w.mappings p.chatId = some m)
    (ht : fetchThread w.threads m.threadId = some t) :
    createThread w now newId createOk p
      = ({ success := true, threadId := some m.threadId,
           threadName := some t.name, error := none }, w, []) := by
  unfold createThread
  rw [hch]
  simp only [Bool.not_true, Bool.false_eq_true, if_false, hm, ht]

/-! #### Split-index lemmas -/

lemma lastIndexScan_lt {s : List Nat} {u : Nat} :
    ∀ {n i : Nat}, lastIndexScan s u n = some i → i < n := by
  intro n
  induction n with
  | zero => intro i h; simp [lastIndexScan] at h
  | succ n ih =>
      intro i h
      unfold lastIndexScan at h
      by_cases hc : s[n]? = some u
      · rw [if_pos hc] at h
        injection h with h
        omega
      · rw [if_neg hc] at h
        exact Nat.lt_succ_of_lt (ih h)

lemma lastIndexScan_mem {s : List Nat} {u : Nat} :
    ∀ {n i : Nat}, lastIndexScan s u n = some i → s[i]? = some u := by
  intro n
  induction n with
  | zero => intro i h; simp [lastIndexScan] at h
  | succ n ih =>
      intro i h
      unfold lastIndexScan at h
      by_cases hc : s[n]? = some u
      · rw [if_pos hc] at h
        injection h with h
        rw [← h]
        exact hc
      · rw [if_neg hc] at h
        exact ih h

lemma lastIndexScan_maximal {s : List Nat} {u : Nat} :
    ∀ {n i j : Nat}, lastIndexScan s u n = some i → i < j → j < n →
      s[j]? ≠ some u := by
  intro n
  induction n with
  | zero => intro i j h; simp [lastIndexScan] at h
  | succ n ih =>
      intro i j h hij hjn
      unfold lastIndexScan at h
      by_cases hc : s[n]? = some u
      · rw [if_pos hc] at h
        injection h with h
        omega
      · rw [if_neg hc] at h
        by_cases hjn' : j = n
        · subst hjn'; exact hc
        · exact ih h hij (by omega)

lemma lastIndexScan_none {s : List Nat} {u : Nat} :
    ∀ {n j : Nat}, lastIndexScan s u n = none → j < n → s[j]? ≠ some u := by
  intro n
  induction n with
  | zero => intro j _ h; omega
  | succ n ih =>
      intro j h hjn
      unfold lastIndexScan at h
      by_cases hc : s[n]? = some u
      · rw [if_pos hc] at h; exact absurd h (by simp)
      · rw [if_neg hc] at h
        by_cases hjn' : j = n
        · subst hjn'; exact hc
        · exact ih h (by omega)

lemma spaceOrHardIndex_lb (r : List Nat) :
    DISCORD_MAX_MESSAGE_LENGTH / 2 ≤ spaceOrHardIndex r := by
  unfold spaceOrHardIndex
  cases h : lastIndexFrom r 32 DISCORD_MAX_MESSAGE_LENGTH with
  | none => simp [DISCORD_MAX_MESSAGE_LENGTH]
  | some i =>
      by_cases hi : i < DISCORD_MAX_MESSAGE_LENGTH / 2
      · simp only [hi, if_true]
        simp [DISCORD_MAX_MESSAGE_LENGTH]
      · simp only [hi, if_false]
        omega

lemma spaceOrHardIndex_ub (r : List Nat) :
    spaceOrHardIndex r ≤ DISCORD_MAX_MESSAGE_LENGTH := by
  unfold spaceOrHardIndex
  cases h : lastIndexFrom r 32 DISCORD_MAX_MESSAGE_LENGTH with
  | none => simp
  | some i =>
      have := lastIndexScan_lt (s := r) (u := 32) h
      by_cases hi : i < DISCORD_MAX_MESSAGE_LENGTH / 2
      · simp [hi]
      · simp only [hi, if_false]
        omega

lemma computeSplitIndex_lb (r : List Nat) :
    DISCORD_MAX_MESSAGE_LENGTH / 2 ≤ computeSplitIndex r := by
  unfold computeSplitIndex
  cases h : lastIndexFrom r 10 DISCORD_MAX_MESSAGE_LENGTH with
  | none => exact spaceOrHardIndex_lb r
  | some i =>
      by_cases hi : i < DISCORD_MAX_MESSAGE_LENGTH / 2
      · simp only [hi, if_true]
        exact spaceOrHardIndex_lb r
      · simp only [hi, if_false]
        omega

lemma computeSplitIndex_ub (r : List Nat) :
    computeSplitIndex r ≤ DISCORD_MAX_MESSAGE_LENGTH := by
  unfold computeSplitIndex
  cases h : lastIndexFrom r 10 DISCORD_MAX_MESSAGE_LENGTH with
  | none => exact spaceOrHardIndex_ub r
  | some i =>
      have := lastIndexScan_lt (s := r) (u := 10) h
      by_cases hi : i < DISCORD_MAX_MESSAGE_LENGTH / 2
      · simp only [hi, if_true]
        exact spaceOrHardIndex_ub r
      · simp only [hi, if_false]
        omega

/-! #### Chunk-shape lemmas -/

lemma splitGo_chunk_bounds :
    ∀ (fuel : Nat) (r : List Nat), r.length ≤ fuel →
      ∀ ch ∈ splitGo fuel r,
        ch.length ≤ DISCORD_MAX_MESSAGE_LENGTH ∧ ch ≠ [] := by
  intro fuel
  induction fuel with
  | zero => intro r _ ch hch; simp [splitGo] at hch
  | succ fuel ih =>
      intro r hr ch hch
      unfold splitGo at hch
      by_cases h0 : r.length = 0
      · rw [if_pos h0] at hch; simp at hch
      · rw [if_neg h0] at hch
        by_cases hle : r.length ≤ DISCORD_MAX_MESSAGE_LENGTH
        · rw [if_pos hle] at hch
          simp at hch
          subst hch
          exact ⟨hle, by intro h; rw [h] at h0; simp at h0⟩
        · rw [if_neg hle] at hch
          simp only [List.mem_cons] at hch
          rcases hch with hch | hch
          · subst hch
            have hub := computeSplitIndex_ub r
            have hlb := computeSplitIndex_lb r
            constructor
            · rw [List.length_take]; omega
            · intro h
              have hlen := congrArg List.length h
              rw [List.length_take] at hlen
              simp only [List.length_nil] at hlen
              have h3 : (1000 : Nat) ≤ computeSplitIndex r := by
                simpa [DISCORD_MAX_MESSAGE_LENGTH] using hlb
              have h4 : ¬ r.length ≤ 2000 := by
                simpa [DISCORD_MAX_MESSAGE_LENGTH] using hle
              omega
          · have hlb := computeSplitIndex_lb r
            refine ih _ ?_ ch hch
            have h1 : ((r.drop (computeSplitIndex r)).dropWhile isJsWhitespace).length
                ≤ (r.drop (computeSplitIndex r)).length :=
              (List.dropWhile_sublist _).length_le
            have h2 : (r.drop (computeSplitIndex r)).length
                = r.length - computeSplitIndex r := List.length_drop ..
            have h3 : (1000 : Nat) ≤ computeSplitIndex r := by
              simpa [DISCORD_MAX_MESSAGE_LENGTH] using hlb
            show ((r.drop (computeSplitIndex r)).dropWhile isJsWhitespace).length ≤ fuel
            omega

lemma splitGo_reassemble :
    ∀ (fuel : Nat) (r : List Nat), r.length ≤ fuel →
      ∃ pieces : List (List Nat × List Nat),
        pieces.map Prod.fst = splitGo fuel r ∧
        (pieces.map (fun p => p.1 ++ p.2)).flatten = r ∧
        ∀ p ∈ pieces, ∀ u ∈ p.2, isJsWhitespace u = true := by
  intro fuel
  induction fuel with
  | zero =>
      intro r hr
      have hnil : r = [] := List.length_eq_zero.mp (Nat.le_zero.mp hr)
      exact ⟨[], by simp [splitGo], by simp [hnil], by simp⟩
  | succ fuel ih =>
      intro r hr
      by_cases h0 : r.length = 0
      · refine ⟨[], ?_, ?_, by simp⟩
        · unfold splitGo; rw [if_pos h0]; simp
        · simp [List.length_eq_zero.mp h0]
      · by_cases hle : r.length ≤ DISCORD_MAX_MESSAGE_LENGTH
        · refine ⟨[(r, [])], ?_, by simp, by simp⟩
          unfold splitGo
          rw [if_neg h0, if_pos hle]
          simp
        · set si := computeSplitIndex r with hsi
          set rest := r.drop si with hrest
          set gap := rest.takeWhile isJsWhitespace with hgap
          set r' := rest.dropWhile isJsWhitespace with hr'
          have hlb := computeSplitIndex_lb r
          have hr'len : r'.length ≤ fuel := by
            have h1 : r'.length ≤ rest.length := by
              rw [hr']; exact (List.dropWhile_sublist _).length_le
            rw [hrest, List.length_drop] at h1
            simp [DISCORD_MAX_MESSAGE_LENGTH] at hlb
            omega
          obtain ⟨pieces', hmap, hjoin, hws⟩ := ih r' hr'len
          refine ⟨(r.take si, gap) :: pieces', ?_, ?_, ?_⟩
          · unfold splitGo
            rw [if_neg h0, if_neg hle]
            simp [hmap, hsi]
          · simp only [List.map_cons, List.flatten_cons, hjoin]
            rw [List.append_assoc]
            have : gap ++ r' = rest := by
              rw [hgap, hr']; exact List.takeWhile_append_dropWhile ..
            rw [this, hrest]
            exact List.take_append_drop ..
          · intro p hp u hu
            simp only [List.mem_cons] at hp
            rcases hp with hp | hp
            · subst hp
              exact List.mem_takeWhile_imp hu
            · exact hws p hp u hu

lemma splitGo_step_nil (fuel : Nat) (r : List Nat) (h0 : r.length = 0) :
    splitGo (fuel + 1) r = [] := by
  unfold splitGo
  rw [if_pos h0]

lemma splitGo_step_short (fuel : Nat) (r : List Nat) (h0 : ¬ r.length = 0)
    (hle : r.length ≤ DISCORD_MAX_MESSAGE_LENGTH) : splitGo (fuel + 1) r = [r] := by
  unfold splitGo
  rw [if_neg h0, if_pos hle]

lemma splitGo_step_long (fuel : Nat) (r : List Nat) (h0 : ¬ r.length = 0)
    (hle : ¬ r.length ≤ DISCORD_MAX_MESSAGE_LENGTH) :
    splitGo (fuel + 1) r
      = r.take (computeSplitIndex r) ::
          splitGo fuel ((r.drop (computeSplitIndex r)).dropWhile isJsWhitespace) := by
  simp only [splitGo]
  rw [if_neg h0, if_neg hle]

lemma lastIndexScan_succ (s : List Nat) (u n : Nat) :
    lastIndexScan s u (n + 1)
      = if s[n]? = some u then some n else lastIndexScan s u n := rfl

/-- Claim C2 (amended): `splitMessage` produces chunks of at most 2000 code
units, all non-empty when the input is non-empty; the concatenation of the
chunks is the input text with the whitespace immediately after each split
point removed (each dropped gap is whitespace-only, so the concatenation
equals the input only up to boundary whitespace); a 2000-unit text yields
one chunk while a 2001-unit text yields at most two — exactly one when the
remainder after the split point trims to nothing; and newline (then space)
break points at or past half the limit are preferred, the greatest such
index within the limit being chosen. -/
theorem claim_C2_splitMessage (content : List Nat) :
    (∀ ch ∈ splitMessage content,
        ch.length ≤ DISCORD_MAX_MESSAGE_LENGTH ∧ (content ≠ [] → ch ≠ []))
    ∧ (∃ pieces : List (List Nat × List Nat),
        pieces.map Prod.fst = splitMessage content ∧
        (pieces.map (fun p => p.1 ++ p.2)).flatten = content ∧
        ∀ p ∈ pieces, ∀ u ∈ p.2, isJsWhitespace u = true)
    ∧ (content.length = 2000 → splitMessage content = [content])
    ∧ (content.length = 2001 →
        (splitMessage content).length ≤ 2
        ∧ ((splitMessage content).length = 1 ↔
            (content.drop (computeSplitIndex content)).dropWhile isJsWhitespace = []))
    ∧ (∀ i, lastIndexFrom content 10 DISCORD_MAX_MESSAGE_LENGTH = some i →
        DISCORD_MAX_MESSAGE_LENGTH / 2 ≤ i →
        computeSplitIndex content = i ∧ content[i]? = some 10 ∧
        ∀ j, i < j → j ≤ DISCORD_MAX_MESSAGE_LENGTH → content[j]? ≠ some 10)
    ∧ (∀ i, (lastIndexFrom content 10 DISCORD_MAX_MESSAGE_LENGTH = none ∨
          ∃ i0, lastIndexFrom content 10 DISCORD_MAX_MESSAGE_LENGTH = some i0
            ∧ i0 < DISCORD_MAX_MESSAGE_LENGTH / 2) →
        lastIndexFrom content 32 DISCORD_MAX_MESSAGE_LENGTH = some i →
        DISCORD_MAX_MESSAGE_LENGTH / 2 ≤ i →
        computeSplitIndex content = i ∧ content[i]? = some 32 ∧
        ∀ j, i < j → j ≤ DISCORD_MAX_MESSAGE_LENGTH → content[j]? ≠ some 32) := by
  refine ⟨?_, ?_, ?_, ?_, ?_, ?_⟩
  · intro ch hch
    unfold splitMessage at hch
    by_cases hle : content.length ≤ DISCORD_MAX_MESSAGE_LENGTH
    · rw [if_pos hle] at hch
      simp at hch
      subst hch
      exact ⟨hle, fun h => h⟩
    · rw [if_neg hle] at hch
      have := splitGo_chunk_bounds content.length content (le_refl _) ch hch
      exact ⟨this.1, fun _ => this.2⟩
  · unfold splitMessage
    by_cases hle : content.length ≤ DISCORD_MAX_MESSAGE_LENGTH
    · rw [if_pos hle]
      exact ⟨[(content, [])], by simp, by simp, by simp⟩
    · rw [if_neg hle]
      exact splitGo_reassemble content.length content (le_refl _)
  · intro h2000
    unfold splitMessage
    rw [if_pos (by rw [h2000]; simp [DISCORD_MAX_MESSAGE_LENGTH])]
  · intro h1
    have hnle : ¬ content.length ≤ DISCORD_MAX_MESSAGE_LENGTH := by
      rw [h1]; simp [DISCORD_MAX_MESSAGE_LENGTH]
    have h0 : ¬ content.length = 0 := by rw [h1]; simp
    have hlb := computeSplitIndex_lb content
    have hq : splitMessage content
        = content.take (computeSplitIndex content) ::
            splitGo 2000
              ((content.drop (computeSplitIndex content)).dropWhile isJsWhitespace) := by
      unfold splitMessage
      rw [if_neg hnle, h1]
      have he : (2001 : Nat) = 2000 + 1 := rfl
      rw [he, splitGo_step_long 2000 content h0 hnle]
    set rest := (content.drop (computeSplitIndex content)).dropWhile isJsWhitespace
      with hrest
    have hrlen : rest.length ≤ 1001 := by
      have ha : rest.length ≤ (content.drop (computeSplitIndex content)).length := by
        rw [hrest]; exact (List.dropWhile_sublist _).length_le
      rw [List.length_drop, h1] at ha
      have hb : (1000 : Nat) ≤ computeSplitIndex content := by
        simpa [DISCORD_MAX_MESSAGE_LENGTH] using hlb
      omega
    by_cases hz : rest.length = 0
    · have : splitGo 2000 rest = [] := by
        have he : (2000 : Nat) = 1999 + 1 := rfl
        rw [he]
        exact splitGo_step_nil 1999 rest hz
      rw [hq, this]
      exact ⟨by simp, by simp [List.length_eq_zero.mp hz]⟩
    · have : splitGo 2000 rest = [rest] := by
        have he : (2000 : Nat) = 1999 + 1 := rfl
        rw [he]
        exact splitGo_step_short 1999 rest hz
          (by simp [DISCORD_MAX_MESSAGE_LENGTH]; omega)
      rw [hq, this]
      refine ⟨by simp, ?_⟩
      simp only [List.length_cons, List.length_singleton]
      constructor
      · intro h; omega
      · intro h
        exact absurd (List.length_eq_zero.mpr h) hz
  · intro i hnl hge
    refine ⟨?_, lastIndexScan_mem hnl, ?_⟩
    · unfold computeSplitIndex
      simp only [hnl]
      rw [if_neg (by omega)]
    · intro j hij hjle
      exact lastIndexScan_maximal hnl hij (by omega)
  · intro i hfail hsp hge
    have hsecond : spaceOrHardIndex content = i := by
      unfold spaceOrHardIndex
      simp only [hsp]
      rw [if_neg (by omega)]
    refine ⟨?_, lastIndexScan_mem hsp, ?_⟩
    · unfold computeSplitIndex
      rcases hfail with hnone | ⟨i0, hsome, hlt⟩
      · simp only [hnone]
        exact hsecond
      · simp only [hsome]
        rw [if_pos hlt]
        exact hsecond
    · intro j hij hjle
      exact lastIndexScan_maximal hsp hij (by omega)

/-- Counterexample for claim C2 as stated: `trimStart` drops whitespace at
each split boundary, so the concatenation of the chunks of the 2002-unit
text `aa…a\nb` is not the original text; and the 2001-unit text `aa…a\n`
yields a single chunk, not two. -/
theorem claim_C2_counterexample :
    (splitMessage (List.replicate 2000 97 ++ [10, 98])).flatten
        ≠ List.replicate 2000 97 ++ [10, 98]
    ∧ (splitMessage (List.replicate 2000 97 ++ [10])).length = 1 := by
  have hget : ∀ tail : List Nat,
      (List.replicate 2000 97 ++ tail)[2000]? = tail[0]? := by
    intro tail
    rw [List.getElem?_append_right (by simp only [List.length_replicate, le_refl])]
    simp only [List.length_replicate, Nat.sub_self]
  have hnl : ∀ tail : List Nat, tail[0]? = some 10 →
      lastIndexFrom (List.replicate 2000 97 ++ tail) 10
        DISCORD_MAX_MESSAGE_LENGTH = some 2000 := by
    intro tail h0
    unfold lastIndexFrom
    rw [lastIndexScan_succ]
    simp only [DISCORD_MAX_MESSAGE_LENGTH]
    rw [hget tail, h0, if_pos rfl]
  have hsi : ∀ tail : List Nat, tail[0]? = some 10 →
      computeSplitIndex (List.replicate 2000 97 ++ tail) = 2000 := by
    intro tail h0
    unfold computeSplitIndex
    simp only [hnl tail h0]
    rw [if_neg (by simp [DISCORD_MAX_MESSAGE_LENGTH])]
  have hsplit : ∀ tail : List Nat, tail ≠ [] → tail[0]? = some 10 →
      tail.length ≤ 2000 →
      splitMessage (List.replicate 2000 97 ++ tail)
        = List.replicate 2000 97 ::
            splitGo (1999 + tail.length) (tail.dropWhile isJsWhitespace) := by
    intro tail hne h0 htl
    have hlen : (List.replicate 2000 97 ++ tail).length = 2000 + tail.length := by
      rw [List.length_append, List.length_replicate]
    have hpos : 0 < tail.length := List.length_pos.mpr hne
    have hnle : ¬ (List.replicate 2000 97 ++ tail).length
        ≤ DISCORD_MAX_MESSAGE_LENGTH := by
      rw [hlen]
      simp only [DISCORD_MAX_MESSAGE_LENGTH]
      omega
    unfold splitMessage
    rw [if_neg hnle, hlen]
    have he : 2000 + tail.length = (1999 + tail.length) + 1 := by omega
    rw [he, splitGo_step_long (1999 + tail.length) _
      (by rw [hlen]; omega) hnle]
    rw [hsi tail h0]
    have htake : (List.replicate 2000 97 ++ tail).take 2000
        = List.replicate 2000 97 := by
      have h := List.take_left (List.replicate 2000 97) tail
      rw [List.length_replicate] at h
      exact h
    have hdrop : (List.replicate 2000 97 ++ tail).drop 2000 = tail := by
      have h := List.drop_left (List.replicate 2000 97) tail
      rw [List.length_replicate] at h
      exact h
    rw [htake, hdrop]
  constructor
  · have h1 := hsplit [10, 98] (by simp) rfl (by simp)
    have h2 : List.dropWhile isJsWhitespace [10, 98] = [98] := by decide
    have h3 : splitGo (1999 + ([10, 98] : List Nat).length) [98] = [[98]] := by
      show splitGo (2000 + 1) [98] = [[98]]
      exact splitGo_step_short 2000 [98] (by simp)
        (by simp [DISCORD_MAX_MESSAGE_LENGTH])
    rw [h1, h2, h3]
    intro hcontra
    have hlenc := congrArg List.length hcontra
    simp only [List.flatten_cons, List.flatten_nil, List.append_nil,
      List.length_append, List.length_replicate, List.length_cons,
      List.length_nil] at hlenc
    omega
  · have h1 := hsplit [10] (by simp) rfl (by simp)
    have h2 : List.dropWhile isJsWhitespace [10] = [] := by decide
    have h3 : splitGo (1999 + ([10] : List Nat).length) ([] : List Nat) = [] := by
      show splitGo (1999 + 1) ([] : List Nat) = []
      exact splitGo_step_nil 1999 [] rfl
    rw [h1, h2, h3]
    rfl

/-- Witness for claim C2 at concrete inputs: a 2000-unit text is one chunk
and a non-empty short text yields one non-empty chunk. -/
theorem claim_C2_witness :
    splitMessage (List.replicate 2000 97) = [List.replicate 2000 97]
    ∧ ∀ ch ∈ splitMessage [97], ch.length ≤ DISCORD_MAX_MESSAGE_LENGTH ∧ ch ≠ [] := by
  constructor
  · exact (claim_C2_splitMessage (List.replicate 2000 97)).2.2.1
      (by simp only [List.length_replicate])
  · intro ch hch
    have h := (claim_C2_splitMessage [97]).1 ch hch
    exact ⟨h.1, h.2 (by simp)⟩

/-! ### Interaction-manager lemmas -/

lemma any_false_of_filter {α : Type} (l : List α) (p f : α → Bool)
    (h : l.any p = false) : (l.filter f).any p = false := by
  rw [List.any_eq_false] at h ⊢
  intro x hx
  exact h x (List.mem_of_mem_filter hx)

lemma anyMsg_filter_self (l : List PendingQuestion) (mid : String) :
    (l.filter (fun q => !(q.messageId == mid))).any
      (fun q => q.messageId == mid) = false := by
  induction l with
  | nil => rfl
  | cons q rest ih =>
      by_cases h : q.messageId == mid
      · simp only [List.filter_cons, h, Bool.not_true, Bool.false_eq_true,
          ↓reduceIte]
        exact ih
      · simp only [List.filter_cons, h, Bool.not_false, ↓reduceIte,
          List.any_cons, h, Bool.false_or]
        exact ih

lemma anyMsg_filter_other (l : List PendingQuestion) (a mid : String)
    (hne : ¬ a = mid) :
    (l.filter (fun q => !(q.messageId == a))).any (fun q => q.messageId == mid)
      = l.any (fun q => q.messageId == mid) := by
  induction l with
  | nil => rfl
  | cons q rest ih =>
      by_cases h : q.messageId == a
      · have hm : (q.messageId == mid) = false := by
          have hqa : q.messageId = a := by simpa using h
          simp [hqa, hne]
        simp only [List.filter_cons, h, Bool.not_true, Bool.false_eq_true,
          ↓reduceIte, List.any_cons, hm, Bool.false_or]
        exact ih
      · simp only [List.filter_cons, h, Bool.not_false, ↓reduceIte,
          List.any_cons]
        rw [ih]

lemma anyMsg_map_update (l : List PendingQuestion) (mid target : String)
    (toggled : List String) :
    (l.map (fun q =>
        if q.messageId == target then { q with selectedOptions := toggled }
        else q)).any (fun q => q.messageId == mid)
      = l.any (fun q => q.messageId == mid) := by
  induction l with
  | nil => rfl
  | cons q rest ih =>
      by_cases h : q.messageId == target
      · simp only [List.map_cons, h, ↓reduceIte, List.any_cons]
        rw [ih]
      · simp only [List.map_cons, h, Bool.false_eq_true, ↓reduceIte,
          List.any_cons]
        rw [ih]

lemma sinkCount_append (mid : String) (a b : List Action) :
    sinkCount mid (a ++ b) = sinkCount mid a + sinkCount mid b := by
  simp [sinkCount, List.filter_append]

lemma sinkCount_resolveTrace (mid m : String) (r : AskQuestionResult) :
    sinkCount mid [Action.editedMessage m, Action.sinkResolved m r]
      = if m == mid then 1 else 0 := by
  by_cases h : m == mid
  · simp [sinkCount, List.filter, isSinkFor, h]
  · simp [sinkCount, List.filter, isSinkFor, h]

lemma hasPending_false_of_mem {s : BridgeState} {mid : String}
    {pq : PendingQuestion} (hmem : pq ∈ s.pendingQuestions)
    (h : hasPending s mid = false) : (pq.messageId == mid) = false := by
  unfold hasPending at h
  rw [List.any_eq_false] at h
  simpa using h pq hmem

/-- Effect of one `resolveQuestion` call on pendingness and sink count,
packaged for reuse across the three resolution paths. -/
lemma resolve_effect (s : BridgeState) (pq : PendingQuestion)
    (result : AskQuestionResult) (mid : String)
    (hmem : pq ∈ s.pendingQuestions) :
    (hasPending s mid = false →
      hasPending (resolveQuestion s pq result).1 mid = false
        ∧ sinkCount mid (resolveQuestion s pq result).2 = 0)
    ∧ (hasPending s mid = true →
        (hasPending (resolveQuestion s pq result).1 mid = true
            ∧ sinkCount mid (resolveQuestion s pq result).2 = 0)
        ∨ (hasPending (resolveQuestion s pq result).1 mid = false
            ∧ sinkCount mid (resolveQuestion s pq result).2 = 1)) := by
  constructor
  · intro h
    have hne := hasPending_false_of_mem hmem h
    constructor
    · unfold resolveQuestion hasPending
      exact any_false_of_filter _ _ _ h
    · unfold resolveQuestion
      rw [sinkCount_resolveTrace mid pq.messageId result] at *
      simp [sinkCount_resolveTrace, hne]
  · intro h
    by_cases hpm : pq.messageId = mid
    · right
      constructor
      · unfold resolveQuestion hasPending
        simp only [hpm]
        exact anyMsg_filter_self _ mid
      · unfold resolveQuestion
        rw [sinkCount_resolveTrace]
        simp [hpm]
    · left
      constructor
      · unfold resolveQuestion hasPending
        rw [anyMsg_filter_other _ _ _ hpm]
        exact h
      · unfold resolveQuestion
        rw [sinkCount_resolveTrace]
        simp [hpm]

/-! ### Handler reduction lemmas -/

lemma handleMessage_mapped_question (s : BridgeState) (author tid content : String)
    (now : Nat) (sendOk : Bool) (mapping : ChatMapping) (pq : PendingQuestion)
    (hmap : getMappingForThread s.mappings tid = some mapping)
    (hfind : s.pendingQuestions.find? (fun q => q.threadId == tid) = some pq) :
    handleMessage s false author (some tid) content now sendOk
      = ((resolveQuestion
            (clearExplicitArchive
              { s with threadLastActivity := setA s.threadLastActivity tid now }
              tid) pq
            { success := true, responseType := some "text",
              selectedOptionIds := none, textResponse := some content,
              error := none }).1,
         (resolveQuestion
            (clearExplicitArchive
              { s with threadLastActivity := setA s.threadLastActivity tid now }
              tid) pq
            { success := true, responseType := some "text",
              selectedOptionIds := none, textResponse := some content,
              error := none }).2 ++ [Action.reactedSuccess tid]) := by
  unfold handleMessage
  simp only [Bool.false_eq_true, ↓reduceIte, hmap]
  unfold findQuestionForThread clearExplicitArchive
  simp only [hfind]

lemma handleMessage_mapped_forward (s : BridgeState) (author tid content : String)
    (now : Nat) (sendOk : Bool) (mapping : ChatMapping)
    (hmap : getMappingForThread s.mappings tid = some mapping)
    (hfind : s.pendingQuestions.find? (fun q => q.threadId == tid) = none) :
    handleMessage s false author (some tid) content now sendOk
      = ({ clearExplicitArchive
            { s with threadLastActivity := setA s.threadLastActivity tid now } tid
            with activeDiscordConversations :=
              setA s.activeDiscordConversations tid (author, now) },
         if sendOk then
           [Action.forwardedToCursor mapping.chatId content tid,
            Action.reactedSuccess tid]
         else
           [Action.forwardedToCursor mapping.chatId content tid,
            Action.repliedFailure tid]) := by
  unfold handleMessage
  simp only [Bool.false_eq_true, ↓reduceIte, hmap]
  unfold findQuestionForThread clearExplicitArchive
  simp only [hfind]

lemma handleInteraction_noparse (s : BridgeState) (cid : String)
    (hparse : parseAskCustomId cid = none) :
    handleInteraction s cid = (s, []) := by
  unfold handleInteraction
  simp only [hparse]

lemma handleInteraction_expired (s : BridgeState) (cid m act : String)
    (hparse : parseAskCustomId cid = some (m, act))
    (hfind : s.pendingQuestions.find? (fun q => q.messageId == m) = none) :
    handleInteraction s cid
      = (s, [Action.ephemeralReply
          "This question has expired or already been answered."]) := by
  unfold handleInteraction
  simp only [hparse, hfind]

lemma handleInteraction_submit (s : BridgeState) (cid m : String)
    (pending : PendingQuestion)
    (hparse : parseAskCustomId cid = some (m, "submit"))
    (hfind : s.pendingQuestions.find? (fun q => q.messageId == m) = some pending)
    (hmulti : pending.allowMultiple = true) :
    handleInteraction s cid
      = ((resolveQuestion s pending
            { success := true, responseType := some "option",
              selectedOptionIds := some pending.selectedOptions,
              textResponse := none, error := none }).1,
         (resolveQuestion s pending
            { success := true, responseType := some "option",
              selectedOptionIds := some pending.selectedOptions,
              textResponse := none, error := none }).2
           ++ [Action.ephemeralReply "Selection submitted."]) := by
  unfold handleInteraction
  simp only [hparse, hfind, hmulti, if_true]
  rfl

lemma handleInteraction_toggle (s : BridgeState) (cid m act : String)
    (pending : PendingQuestion)
    (hparse : parseAskCustomId cid = some (m, act))
    (hfind : s.pendingQuestions.find? (fun q => q.messageId == m) = some pending)
    (hmulti : pending.allowMultiple = true)
    (hact : (act == "submit") = false) :
    handleInteraction s cid
      = ({ s with pendingQuestions := s.pendingQuestions.map (fun q =>
            if q.messageId == m then
              { q with selectedOptions :=
                  if pending.selectedOptions.contains act then
                    pending.selectedOptions.filter (fun x => !(x == act))
                  else pending.selectedOptions ++ [act] }
            else q) },
         [Action.editedMessage m, Action.deferredUpdate]) := by
  unfold handleInteraction
  simp only [hparse, hfind, hmulti, if_true, hact, Bool.false_eq_true, ↓reduceIte]

lemma handleInteraction_single (s : BridgeState) (cid m act : String)
    (pending : PendingQuestion)
    (hparse : parseAskCustomId cid = some (m, act))
    (hfind : s.pendingQuestions.find? (fun q => q.messageId == m) = some pending)
    (hmulti : pending.allowMultiple = false) :
    handleInteraction s cid
      = ((resolveQuestion s
            { pending with selectedOptions := addSet pending.selectedOptions act }
            { success := true, responseType := some "option",
              selectedOptionIds := some [act], textResponse := none,
              error := none }).1,
         (resolveQuestion s
            { pending with selectedOptions := addSet pending.selectedOptions act }
            { success := true, responseType := some "option",
              selectedOptionIds := some [act], textResponse := none,
              error := none }).2
           ++ [Action.ephemeralReply "Option selected."]) := by
  unfold handleInteraction
  simp only [hparse, hfind, hmulti, Bool.false_eq_true, ↓reduceIte]

lemma handleQuestionTimeout_none (s : BridgeState) (m : String)
    (hfind : s.pendingQuestions.find? (fun q => q.messageId == m) = none) :
    handleQuestionTimeout s m = (s, []) := by
  unfold handleQuestionTimeout
  simp only [hfind]

lemma handleQuestionTimeout_some (s : BridgeState) (m : String)
    (pq : PendingQuestion)
    (hfind : s.pendingQuestions.find? (fun q => q.messageId == m) = some pq) :
    handleQuestionTimeout s m
      = ({ s with pendingQuestions :=
            s.pendingQuestions.filter (fun q => !(q.messageId == m)) },
         [Action.editedMessage m,
          Action.sinkResolved m
            { success := false, responseType := none, selectedOptionIds := none,
              textResponse := none,
              error := some "Question timed out waiting for response" }]) := by
  unfold handleQuestionTimeout
  simp only [hfind]

lemma handleThreadUpdate_preserves (s : BridgeState) (tid : String)
    (o n : Bool) (aad cts : Option Nat) (now : Nat) :
    (handleThreadUpdate s tid o n aad cts now).1.pendingQuestions
        = s.pendingQuestions
    ∧ (handleThreadUpdate s tid o n aad cts now).2 = [] := by
  unfold handleThreadUpdate
  by_cases h1 : (o == n) = true
  · simp [h1]
  · simp only [h1, Bool.false_eq_true, ↓reduceIte]
    cases hmap : getMappingForThread s.mappings tid with
    | none => simp
    | some mapping =>
        simp only []
        by_cases h2 : (!o && n) = true
        · simp only [h2, if_true]
          unfold handleThreadArchived
          by_cases h3 : archiveIsManual s.threadLastActivity tid aad cts now = true
          · simp [h3, markExplicitlyArchived]
          · simp [h3]
        · simp only [h2, Bool.false_eq_true, ↓reduceIte]
          by_cases h4 : (o && !n) = true
          · simp [h4, clearExplicitArchive]
          · simp [h4]

lemma handleMessage_skip (s : BridgeState) (author : String)
    (threadOf : Option String) (content : String) (now : Nat) (sendOk : Bool) :
    handleMessage s true author threadOf content now sendOk = (s, []) := by
  unfold handleMessage
  simp

lemma handleMessage_nothread (s : BridgeState) (author content : String)
    (now : Nat) (sendOk : Bool) :
    handleMessage s false author none content now sendOk = (s, []) := by
  unfold handleMessage
  simp

lemma handleMessage_unmapped (s : BridgeState) (author tid content : String)
    (now : Nat) (sendOk : Bool)
    (hmap : getMappingForThread s.mappings tid = none) :
    handleMessage s false author (some tid) content now sendOk = (s, []) := by
  unfold handleMessage
  simp [hmap]

/-- Trivial-case packaging: a handler that neither touches the pending map
nor invokes a sink for `mid` satisfies the single-resolution contract. -/
lemma sink_spec_triv (s : BridgeState) (r : BridgeState × List Action)
    (mid : String) (h1 : r.1.pendingQuestions = s.pendingQuestions)
    (h2 : sinkCount mid r.2 = 0) :
    (hasPending s mid = false →
      hasPending r.1 mid = false ∧ sinkCount mid r.2 = 0)
    ∧ (hasPending s mid = true →
        (hasPending r.1 mid = true ∧ sinkCount mid r.2 = 0)
        ∨ (hasPending r.1 mid = false ∧ sinkCount mid r.2 = 1)) := by
  have hp : hasPending r.1 mid = hasPending s mid := by
    unfold hasPending
    rw [h1]
  exact ⟨fun h => ⟨by rw [hp, h], h2⟩, fun h => Or.inl ⟨by rw [hp, h], h2⟩⟩

/-- Resolution-case packaging: a handler whose result is
`resolveQuestion s2 pq res` followed by sink-free extra actions. -/
lemma sink_spec_resolve (s s2 : BridgeState) (pq : PendingQuestion)
    (res : AskQuestionResult) (extra : List Action) (mid : String)
    (hpq : s2.pendingQuestions = s.pendingQuestions)
    (hmsg : ∃ q ∈ s.pendingQuestions, q.messageId = pq.messageId)
    (hextra : sinkCount mid extra = 0) :
    (hasPending s mid = false →
      hasPending (resolveQuestion s2 pq res).1 mid = false
        ∧ sinkCount mid ((resolveQuestion s2 pq res).2 ++ extra) = 0)
    ∧ (hasPending s mid = true →
        (hasPending (resolveQuestion s2 pq res).1 mid = true
            ∧ sinkCount mid ((resolveQuestion s2 pq res).2 ++ extra) = 0)
        ∨ (hasPending (resolveQuestion s2 pq res).1 mid = false
            ∧ sinkCount mid ((resolveQuestion s2 pq res).2 ++ extra) = 1)) := by
  obtain ⟨q, hqmem, hqid⟩ := hmsg
  constructor
  · intro h
    have hne : (pq.messageId == mid) = false := by
      have := hasPending_false_of_mem hqmem h
      rw [hqid] at this
      exact this
    constructor
    · unfold resolveQuestion hasPending
      exact any_false_of_filter _ _ _ (by
        unfold hasPending at h
        rw [show s2.pendingQuestions = s.pendingQuestions from hpq]
        exact h)
    · unfold resolveQuestion
      rw [sinkCount_append, sinkCount_resolveTrace, hextra]
      simp [hne]
  · intro h
    have h2 : s2.pendingQuestions.any (fun q => q.messageId == mid) = true := by
      rw [hpq]
      exact h
    by_cases hpm : pq.messageId = mid
    · right
      constructor
      · unfold resolveQuestion hasPending
        simp only [hpm]
        exact anyMsg_filter_self _ mid
      · unfold resolveQuestion
        rw [sinkCount_append, sinkCount_resolveTrace, hextra]
        simp [hpm]
    · left
      constructor
      · unfold resolveQuestion hasPending
        rw [anyMsg_filter_other _ _ _ hpm]
        exact h2
      · unfold resolveQuestion
        rw [sinkCount_append, sinkCount_resolveTrace, hextra]
        simp [hpm]

/-- Every single event preserves the single-resolution contract: a question
absent from the pending map is never resolved, and a pending question is
either left pending with no sink call or removed with exactly one. -/
lemma stepEvent_pending (s : BridgeState) (e : BridgeEvent) (mid : String) :
    (hasPending s mid = false →
      hasPending (stepEvent s e).1 mid = false
        ∧ sinkCount mid (stepEvent s e).2 = 0)
    ∧ (hasPending s mid = true →
        (hasPending (stepEvent s e).1 mid = true
            ∧ sinkCount mid (stepEvent s e).2 = 0)
        ∨ (hasPending (stepEvent s e).1 mid = false
            ∧ sinkCount mid (stepEvent s e).2 = 1)) := by
  cases e with
  | message bot author threadOf content now sendOk =>
      show (hasPending s mid = false → _) ∧ _
      cases bot with
      | true =>
          rw [show stepEvent s (.message true author threadOf content now sendOk)
              = handleMessage s true author threadOf content now sendOk from rfl,
            handleMessage_skip]
          exact sink_spec_triv s (s, []) mid rfl rfl
      | false =>
          cases threadOf with
          | none =>
              rw [show stepEvent s (.message false author none content now sendOk)
                  = handleMessage s false author none content now sendOk from rfl,
                handleMessage_nothread]
              exact sink_spec_triv s (s, []) mid rfl rfl
          | some tid =>
              rw [show stepEvent s
                    (.message false author (some tid) content now sendOk)
                  = handleMessage s false author (some tid) content now sendOk
                  from rfl]
              cases hmap : getMappingForThread s.mappings tid with
              | none =>
                  rw [handleMessage_unmapped s author tid content now sendOk hmap]
                  exact sink_spec_triv s (s, []) mid rfl rfl
              | some mapping =>
                  cases hfind : s.pendingQuestions.find?
                      (fun q => q.threadId == tid) with
                  | some pq =>
                      rw [handleMessage_mapped_question s author tid content now
                        sendOk mapping pq hmap hfind]
                      exact sink_spec_resolve s _ pq _
                        [Action.reactedSuccess tid] mid rfl
                        ⟨pq, List.mem_of_find?_eq_some hfind, rfl⟩
                        (by simp [sinkCount, isSinkFor, List.filter])
                  | none =>
                      rw [handleMessage_mapped_forward s author tid content now
                        sendOk mapping hmap hfind]
                      refine sink_spec_triv s _ mid rfl ?_
                      cases sendOk <;>
                        simp [sinkCount, isSinkFor, List.filter]
  | buttonClick cid =>
      rw [show stepEvent s (.buttonClick cid) = handleInteraction s cid from rfl]
      cases hparse : parseAskCustomId cid with
      | none =>
          rw [handleInteraction_noparse s cid hparse]
          exact sink_spec_triv s (s, []) mid rfl rfl
      | some pair =>
          obtain ⟨m, act⟩ := pair
          cases hfind : s.pendingQuestions.find? (fun q => q.messageId == m) with
          | none =>
              rw [handleInteraction_expired s cid m act hparse hfind]
              exact sink_spec_triv s _ mid rfl
                (by simp [sinkCount, isSinkFor, List.filter])
          | some pending =>
              have hmem := List.mem_of_find?_eq_some hfind
              by_cases hmulti : pending.allowMultiple = true
              · by_cases hact : (act == "submit") = true
                · have hacteq : act = "submit" := by simpa using hact
                  subst hacteq
                  rw [handleInteraction_submit s cid m pending hparse hfind hmulti]
                  exact sink_spec_resolve s s pending _
                    [Action.ephemeralReply "Selection submitted."] mid rfl
                    ⟨pending, hmem, rfl⟩
                    (by simp [sinkCount, isSinkFor, List.filter])
                · rw [handleInteraction_toggle s cid m act pending hparse hfind
                    hmulti (by simpa using hact)]
                  refine ⟨fun h => ⟨?_, ?_⟩, fun h => Or.inl ⟨?_, ?_⟩⟩
                  · unfold hasPending
                    rw [anyMsg_map_update]
                    exact h
                  · simp [sinkCount, isSinkFor, List.filter]
                  · unfold hasPending
                    rw [anyMsg_map_update]
                    exact h
                  · simp [sinkCount, isSinkFor, List.filter]
              · have hm2 : pending.allowMultiple = false := by simpa using hmulti
                rw [handleInteraction_single s cid m act pending hparse hfind hm2]
                exact sink_spec_resolve s s
                  { pending with
                      selectedOptions := addSet pending.selectedOptions act } _
                  [Action.ephemeralReply "Option selected."] mid rfl
                  ⟨pending, hmem, rfl⟩
                  (by simp [sinkCount, isSinkFor, List.filter])
  | questionTimeout m =>
      rw [show stepEvent s (.questionTimeout m) = handleQuestionTimeout s m
        from rfl]
      cases hfind : s.pendingQuestions.find? (fun q => q.messageId == m) with
      | none =>
          rw [handleQuestionTimeout_none s m hfind]
          exact sink_spec_triv s (s, []) mid rfl rfl
      | some pq =>
          have hpqm : pq.messageId = m := by
            simpa using List.find?_some hfind
          rw [handleQuestionTimeout_some s m pq hfind, ← hpqm]
          exact sink_spec_resolve s s pq
            { success := false, responseType := none, selectedOptionIds := none,
              textResponse := none,
              error := some "Question timed out waiting for response" }
            [] mid rfl ⟨pq, List.mem_of_find?_eq_some hfind, rfl⟩ rfl
  | threadUpdate tid o n aad cts now =>
      rw [show stepEvent s (.threadUpdate tid o n aad cts now)
          = handleThreadUpdate s tid o n aad cts now from rfl]
      obtain ⟨h1, h2⟩ := handleThreadUpdate_preserves s tid o n aad cts now
      exact sink_spec_triv s _ mid h1 (by rw [h2]; rfl)

/-- The timeout event always resolves a still-pending question. -/
lemma timeout_fires (s : BridgeState) (m : String)
    (h : hasPending s m = true) :
    hasPending (handleQuestionTimeout s m).1 m = false
      ∧ sinkCount m (handleQuestionTimeout s m).2 = 1 := by
  cases hfind : s.pendingQuestions.find? (fun q => q.messageId == m) with
  | none =>
      exfalso
      rw [List.find?_eq_none] at hfind
      unfold hasPending at h
      rw [List.any_eq_true] at h
      obtain ⟨q, hq, hqm⟩ := h
      exact absurd (by simpa using hqm) (by simpa using hfind q hq)
  | some pq =>
      rw [handleQuestionTimeout_some s m pq hfind]
      exact ⟨anyMsg_filter_self _ m, by simp [sinkCount, isSinkFor, List.filter]⟩

lemma runEvents_no_pending (s : BridgeState) (es : List BridgeEvent)
    (mid : String) (h : hasPending s mid = false) :
    hasPending (runEvents s es).1 mid = false
      ∧ sinkCount mid (runEvents s es).2 = 0 := by
  induction es generalizing s with
  | nil => exact ⟨h, rfl⟩
  | cons e rest ih =>
      obtain ⟨h1, h2⟩ := (stepEvent_pending s e mid).1 h
      obtain ⟨h3, h4⟩ := ih _ h1
      constructor
      · simpa [runEvents] using h3
      · simp [runEvents, sinkCount_append, h2, h4]

lemma runEvents_from_pending (s : BridgeState) (es : List BridgeEvent)
    (mid : String) (h : hasPending s mid = true) :
    (hasPending (runEvents s es).1 mid = true
        ∧ sinkCount mid (runEvents s es).2 = 0)
    ∨ sinkCount mid (runEvents s es).2 = 1 := by
  induction es generalizing s with
  | nil => exact Or.inl ⟨h, rfl⟩
  | cons e rest ih =>
      rcases (stepEvent_pending s e mid).2 h with ⟨h1, h2⟩ | ⟨h1, h2⟩
      · rcases ih _ h1 with ⟨h3, h4⟩ | h3
        · exact Or.inl ⟨by simpa [runEvents] using h3,
            by simp [runEvents, sinkCount_append, h2, h4]⟩
        · exact Or.inr (by simp [runEvents, sinkCount_append, h2, h3])
      · have h3 := (runEvents_no_pending _ rest mid h1).2
        exact Or.inr (by simp [runEvents, sinkCount_append, h2, h3])

lemma runEvents_timeout_resolves (s : BridgeState) (es : List BridgeEvent)
    (mid : String) (h : hasPending s mid = true)
    (hmem : BridgeEvent.questionTimeout mid ∈ es) :
    sinkCount mid (runEvents s es).2 = 1 := by
  induction es generalizing s with
  | nil => cases hmem
  | cons e rest ih =>
      rcases (stepEvent_pending s e mid).2 h with ⟨h1, h2⟩ | ⟨h1, h2⟩
      · by_cases he : e = BridgeEvent.questionTimeout mid
        · exfalso
          subst he
          have hf := (timeout_fires s mid h).1
          rw [show (stepEvent s (BridgeEvent.questionTimeout mid)).1
              = (handleQuestionTimeout s mid).1 from rfl, hf] at h1
          exact Bool.false_ne_true h1
        · have hmem' : BridgeEvent.questionTimeout mid ∈ rest := by
            rcases List.mem_cons.mp hmem with heq | hm
            · exact absurd heq.symm he
            · exact hm
          have h3 := ih _ h1 hmem'
          simp [runEvents, sinkCount_append, h2, h3]
      · have h3 := (runEvents_no_pending _ rest mid h1).2
        simp [runEvents, sinkCount_append, h2, h3]

/-- Claim C4: over any sequence of gateway events, each Open Question's
completion sink is invoked at most once; when the question was pending and
its timeout fires within the sequence, the sink is invoked exactly once;
a question that is not pending is never resolved; and a button interaction
carrying the message id of a question that is no longer pending only
receives the ephemeral "expired" reply and changes nothing. -/
theorem claim_C4_single_resolution (s : BridgeState) (es : List BridgeEvent)
    (mid cid act : String) :
    sinkCount mid (runEvents s es).2 ≤ 1
    ∧ (hasPending s mid = true → BridgeEvent.questionTimeout mid ∈ es →
        sinkCount mid (runEvents s es).2 = 1)
    ∧ (hasPending s mid = false → sinkCount mid (runEvents s es).2 = 0)
    ∧ (hasPending s mid = false → parseAskCustomId cid = some (mid, act) →
        stepEvent s (BridgeEvent.buttonClick cid)
          = (s, [Action.ephemeralReply
              "This question has expired or already been answered."])) := by
  refine ⟨?_, ?_, ?_, ?_⟩
  · cases h : hasPending s mid with
    | false =>
        rw [(runEvents_no_pending s es mid h).2]
        exact Nat.zero_le 1
    | true =>
        rcases runEvents_from_pending s es mid h with ⟨_, h2⟩ | h2 <;> simp [h2]
  · exact runEvents_timeout_resolves s es mid
  · exact fun h => (runEvents_no_pending s es mid h).2
  · intro h hparse
    have hfind : s.pendingQuestions.find? (fun q => q.messageId == mid) = none := by
      rw [List.find?_eq_none]
      intro q hq
      unfold hasPending at h
      rw [List.any_eq_false] at h
      simpa using h q hq
    rw [show stepEvent s (.buttonClick cid) = handleInteraction s cid from rfl]
    exact handleInteraction_expired s cid mid act hparse hfind

/-- Witness for claim C4: a concrete pending single-option question resolved
by its timeout event, with an interloping unrelated thread update. -/
theorem claim_C4_witness :
    sinkCount "M1"
      (runEvents
        { mappings := [⟨"c1", "T1", "ws", 0, none⟩],
          threadLastActivity := [],
          explicitlyArchivedThreadIds := [],
          activeDiscordConversations := [],
          pendingQuestions :=
            [{ threadId := "T1", messageId := "M1", question := "Pick",
               options := [("a", "A")], allowMultiple := false,
               selectedOptions := [] }] }
        [BridgeEvent.threadUpdate "T9" false true none none 5,
         BridgeEvent.questionTimeout "M1"]).2 = 1 := by
  exact (claim_C4_single_resolution _ _ "M1" "x" "y").2.1 (by decide) (by simp)

lemma lookupA_setA_self {α : Type} (l : List (String × α)) (k : String) (v : α) :
    lookupA (setA l k v) k = some v := by
  unfold lookupA setA
  by_cases h : l.any (fun p => p.1 == k) = true
  · rw [if_pos h]
    have h1 : List.find? (fun p : String × α => p.1 == k)
        (l.map (fun p => if p.1 == k then (k, v) else p)) = some (k, v) :=
      find?_map_replace_self (fun p => p.1) k (k, v) rfl l h
    rw [h1]
    rfl
  · rw [if_neg h]
    have h1 : List.find? (fun p : String × α => p.1 == k) (l ++ [(k, v)])
        = some (k, v) :=
      find?_append_single_self (fun p => p.1) k (k, v) rfl l
        (Bool.eq_false_iff.mpr h)
    rw [h1]
    rfl

lemma not_mem_filter_self (l : List String) (t : String) :
    t ∉ l.filter (fun x => !(x == t)) := by
  intro h
  rw [List.mem_filter] at h
  simp at h

lemma mem_addSet_self (l : List String) (x : String) : x ∈ addSet l x := by
  unfold addSet
  by_cases h : l.contains x
  · rw [if_pos h]
    simpa using h
  · rw [if_neg h]
    simp

/-- Claim C5: bot messages and messages outside mapped threads change
nothing and forward nothing; a non-bot message in a mapped thread records
the thread's activity at the current time and clears its explicit-archive
flag; when an Open Question exists on the thread the message resolves it as
a free-text answer with the message content and is not forwarded to the
IDE actuator, and otherwise the message is forwarded to the mapped
conversation. -/
theorem claim_C5_handleMessage (s : BridgeState) (author tid content : String)
    (now : Nat) (sendOk : Bool) :
    (∀ t c, handleMessage s true author t c now sendOk = (s, []))
    ∧ handleMessage s false author none content now sendOk = (s, [])
    ∧ (getMappingForThread s.mappings tid = none →
        handleMessage s false author (some tid) content now sendOk = (s, []))
    ∧ (∀ m, getMappingForThread s.mappings tid = some m →
        lookupA (handleMessage s false author (some tid) content now
            sendOk).1.threadLastActivity tid = some now
        ∧ tid ∉ (handleMessage s false author (some tid) content now
            sendOk).1.explicitlyArchivedThreadIds
        ∧ (∀ pq, s.pendingQuestions.find? (fun q => q.threadId == tid)
              = some pq →
            Action.sinkResolved pq.messageId
                { success := true, responseType := some "text",
                  selectedOptionIds := none, textResponse := some content,
                  error := none }
              ∈ (handleMessage s false author (some tid) content now sendOk).2
            ∧ ∀ ch mg th, Action.forwardedToCursor ch mg th
                ∉ (handleMessage s false author (some tid) content now sendOk).2)
        ∧ (s.pendingQuestions.find? (fun q => q.threadId == tid) = none →
            Action.forwardedToCursor m.chatId content tid
              ∈ (handleMessage s false author (some tid) content now sendOk).2)) := by
  refine ⟨fun t c => handleMessage_skip s author t c now sendOk,
    handleMessage_nothread s author content now sendOk,
    fun h => handleMessage_unmapped s author tid content now sendOk h,
    ?_⟩
  intro m hmap
  cases hfind : s.pendingQuestions.find? (fun q => q.threadId == tid) with
  | some pq =>
      rw [handleMessage_mapped_question s author tid content now sendOk m pq
        hmap hfind]
      refine ⟨?_, ?_, ?_, ?_⟩
      · simp only [resolveQuestion, clearExplicitArchive]
        exact lookupA_setA_self s.threadLastActivity tid now
      · simp only [resolveQuestion, clearExplicitArchive]
        exact not_mem_filter_self _ tid
      · intro pq' hfind'
        have hpq' : pq' = pq := (Option.some.inj hfind').symm
        subst hpq'
        constructor
        · simp [resolveQuestion]
        · intro ch mg th hmem
          simp [resolveQuestion] at hmem
      · intro hnone
        exact absurd hnone (by simp)
  | none =>
      rw [handleMessage_mapped_forward s author tid content now sendOk m
        hmap hfind]
      refine ⟨?_, ?_, ?_, ?_⟩
      · simp only [clearExplicitArchive]
        exact lookupA_setA_self s.threadLastActivity tid now
      · simp only [clearExplicitArchive]
        exact not_mem_filter_self _ tid
      · intro pq' hfind'
        exact absurd hfind' (by simp)
      · intro _
        cases sendOk <;> simp

/-- Witness for claim C5: a concrete non-bot message in a mapped thread
with a pending question resolves the question with the message text. -/
theorem claim_C5_witness :
    Action.sinkResolved "M1"
        { success := true, responseType := some "text",
          selectedOptionIds := none, textResponse := some "none of these",
          error := none }
      ∈ (handleMessage
          { mappings := [⟨"c1", "T1", "ws", 0, none⟩],
            threadLastActivity := [],
            explicitlyArchivedThreadIds := [],
            activeDiscordConversations := [],
            pendingQuestions :=
              [{ threadId := "T1", messageId := "M1", question := "Pick",
                 options := [("a", "A"), ("b", "B")], allowMultiple := true,
                 selectedOptions := ["a"] }] }
          false "u1" (some "T1") "none of these" 77 true).2 := by
  have h := (claim_C5_handleMessage
    { mappings := [⟨"c1", "T1", "ws", 0, none⟩],
      threadLastActivity := [],
      explicitlyArchivedThreadIds := [],
      activeDiscordConversations := [],
      pendingQuestions :=
        [{ threadId := "T1", messageId := "M1", question := "Pick",
           options := [("a", "A"), ("b", "B")], allowMultiple := true,
           selectedOptions := ["a"] }] }
    "u1" "T1" "none of these" 77 true).2.2.2 ⟨"c1", "T1", "ws", 0, none⟩
    (by decide)
  exact (h.2.2.1
    { threadId := "T1", messageId := "M1", question := "Pick",
      options := [("a", "A"), ("b", "B")], allowMultiple := true,
      selectedOptions := ["a"] } (by decide)).1

lemma handleThreadUpdate_archived (s : BridgeState) (tid : String)
    (aad cts : Option Nat) (now : Nat) (mapping : ChatMapping)
    (hmap : getMappingForThread s.mappings tid = some mapping) :
    handleThreadUpdate s tid false true aad cts now
      = (handleThreadArchived s tid aad cts now, []) := by
  unfold handleThreadUpdate
  simp [hmap]

/-- Claim C3 (amended): on an archived-off→on transition of a mapped
thread, the thread is added to the explicit-archive set iff the time since
its last recorded local activity is strictly less than
`autoArchiveDuration − 5 minutes`; with `autoArchiveDuration = 1440`
minutes the boundary falls at 1435 minutes, so an archive at 1434 minutes
after activity is manual while archives at exactly 1435 minutes and at
1436 minutes are classified as inactivity. -/
theorem claim_C3_archiveThreshold (s : BridgeState) (tid : String)
    (m : ChatMapping) (aad cts : Option Nat) (now act : Nat)
    (hmap : getMappingForThread s.mappings tid = some m)
    (hact : lookupA s.threadLastActivity tid = some act) :
    (archiveIsManual s.threadLastActivity tid aad cts now = true
      ↔ now - act
          < jsOrDefault aad 1440 * 60 * 1000 - ARCHIVE_DETECTION_BUFFER_MS)
    ∧ (archiveIsManual s.threadLastActivity tid aad cts now = true →
        tid ∈ (handleThreadUpdate s tid false true aad cts
            now).1.explicitlyArchivedThreadIds)
    ∧ (archiveIsManual s.threadLastActivity tid aad cts now = false →
        (handleThreadUpdate s tid false true aad cts now).1 = s)
    ∧ (aad = some 1440 → now - act = 1434 * 60 * 1000 →
        archiveIsManual s.threadLastActivity tid aad cts now = true)
    ∧ (aad = some 1440 → now - act = 1435 * 60 * 1000 →
        archiveIsManual s.threadLastActivity tid aad cts now = false)
    ∧ (aad = some 1440 → now - act = 1436 * 60 * 1000 →
        archiveIsManual s.threadLastActivity tid aad cts now = false) := by
  have hiff : archiveIsManual s.threadLastActivity tid aad cts now = true
      ↔ now - act
          < jsOrDefault aad 1440 * 60 * 1000 - ARCHIVE_DETECTION_BUFFER_MS := by
    unfold archiveIsManual
    rw [hact]
    simp
  refine ⟨hiff, ?_, ?_, ?_, ?_, ?_⟩
  · intro hman
    rw [handleThreadUpdate_archived s tid aad cts now m hmap]
    unfold handleThreadArchived
    rw [if_pos hman]
    exact mem_addSet_self _ tid
  · intro hman
    rw [handleThreadUpdate_archived s tid aad cts now m hmap]
    unfold handleThreadArchived
    rw [if_neg (by rw [hman]; exact Bool.false_ne_true)]
  · intro h1 h2
    rw [hiff, h2, h1]
    decide
  · intro h1 h2
    rw [Bool.eq_false_iff, Ne, hiff, h2, h1]
    decide
  · intro h1 h2
    rw [Bool.eq_false_iff, Ne, hiff, h2, h1]
    decide

/-- Counterexample for claim C3 as stated: with `autoArchiveDuration =
1440` minutes, an archive at exactly 1435 minutes (86,100,000 ms) after the
last recorded activity is classified as inactivity by the code (the
comparison is strict), not as manual, and the explicit-archive set stays
empty. -/
theorem claim_C3_counterexample :
    archiveIsManual [("T1", 0)] "T1" (some 1440) none 86100000 = false
    ∧ (handleThreadUpdate
        { mappings := [⟨"c1", "T1", "ws", 0, none⟩],
          threadLastActivity := [("T1", 0)],
          explicitlyArchivedThreadIds := [],
          activeDiscordConversations := [],
          pendingQuestions := [] }
        "T1" false true (some 1440) none
        86100000).1.explicitlyArchivedThreadIds = [] := by decide

/-- Witness for claim C3: an archive at 1434 minutes after activity is
classified as manual. -/
theorem claim_C3_witness :
    archiveIsManual [("T1", 0)] "T1" (some 1440) none 86040000 = true := by
  exact (claim_C3_archiveThreshold
    { mappings := [⟨"c1", "T1", "ws", 0, none⟩],
      threadLastActivity := [("T1", 0)],
      explicitlyArchivedThreadIds := [],
      activeDiscordConversations := [],
      pendingQuestions := [] }
    "T1" ⟨"c1", "T1", "ws", 0, none⟩ (some 1440) none 86040000 0
    (by decide) (by decide)).2.2.2.1 rfl (by decide)

/-- Witness for claim C10 at a concrete world with one mapped, fetchable
thread. -/
theorem claim_C10_witness :
    createThread
        { hasChannel := true,
          threads := [⟨"t1", "Old name", false, 10080⟩],
          mappings := [⟨"c1", "t1", "ws", 0, some 5⟩],
          threadLastActivity := [] }
        1000 "t9" true { chatId := "c1", workspaceName := "ws", name := some "X" }
      = ({ success := true, threadId := some "t1", threadName := some "Old name",
           error := none },
         { hasChannel := true,
           threads := [⟨"t1", "Old name", false, 10080⟩],
           mappings := [⟨"c1", "t1", "ws", 0, some 5⟩],
           threadLastActivity := [] }, []) := by
  exact claim_C10_createThread_idempotent _ 1000 "t9" true _
    ⟨"c1", "t1", "ws", 0, some 5⟩ ⟨"t1", "Old name", false, 10080⟩
    rfl (by decide) (by decide)

/-- Claim C9: `handleHealth` always replies HTTP 200 with `status` "ok",
a `workspaceName` string and a `discordConnected` boolean, but its body
never contains a `workspaceFolders` field, contrary to the documented
response shape that the MCP adapter relies on for workspace matching. -/
theorem claim_C9_handleHealth (deps : HealthDeps) :
    (handleHealth deps).1 = 200
    ∧ lookupA (handleHealth deps).2 "status" = some (JsonValue.str "ok")
    ∧ (∃ n, lookupA (handleHealth deps).2 "workspaceName" = some (JsonValue.str n))
    ∧ (∃ b, lookupA (handleHealth deps).2 "discordConnected"
          = some (JsonValue.bool b))
    ∧ lookupA (handleHealth deps).2 "workspaceFolders" = none := by
  refine ⟨rfl, rfl, ⟨_, rfl⟩, ⟨_, rfl⟩, rfl⟩

/-! ### Lemmas for the implicit-archive check (claim C7) -/

lemma find?_map_of_pred {α : Type} (f : α → α) (p : α → Bool) (l : List α)
    (hf : ∀ x, p (f x) = p x) :
    List.find? p (l.map f) = (List.find? p l).map f := by
  induction l with
  | nil => simp
  | cons x rest ih =>
      rw [List.map_cons]
      by_cases hx : p x = true
      · rw [List.find?_cons_of_pos _ (by rw [hf]; exact hx),
            List.find?_cons_of_pos _ hx]
        rfl
      · rw [List.find?_cons_of_neg _ (by rw [hf]; simpa using hx),
            List.find?_cons_of_neg _ (by simpa using hx)]
        exact ih

lemma fetchThread_unarchiveInList (ts : List Thread) (x tid : String) :
    fetchThread (unarchiveInList ts x) tid
      = (fetchThread ts tid).map
          (fun t => if t.id == x then { t with archived := false } else t) := by
  unfold fetchThread unarchiveInList
  apply find?_map_of_pred
  intro t
  by_cases h : (t.id == x) = true
  · rw [if_pos h]
  · rw [if_neg h]

lemma ensureOne_fetch_mono (mappings : List ChatMapping) (ex : List String)
    (acc : Nat × List Thread) (c tid : String) (t : Thread)
    (h : fetchThread acc.2 tid = some t) :
    ∃ t', fetchThread (ensureOne mappings ex acc c).2 tid = some t'
      ∧ (t'.archived = t.archived ∨ t'.archived = false) := by
  unfold ensureOne
  cases hm : getChatMapping mappings c with
  | none => exact ⟨t, h, Or.inl rfl⟩
  | some m =>
      simp only
      by_cases hex : ex.contains m.threadId = true
      · rw [if_pos hex]
        exact ⟨t, h, Or.inl rfl⟩
      · rw [if_neg hex]
        cases hf : fetchThread acc.2 m.threadId with
        | none => exact ⟨t, h, Or.inl rfl⟩
        | some t0 =>
            simp only
            by_cases ha : t0.archived = true
            · rw [if_pos ha]
              rw [fetchThread_unarchiveInList, h]
              by_cases hid : (t.id == m.threadId) = true
              · exact ⟨_, rfl, by simp [hid]⟩
              · exact ⟨_, rfl, by simp [hid]⟩
            · rw [if_neg ha]
              exact ⟨t, h, Or.inl rfl⟩

lemma ensureFold_unarchived_mono (mappings : List ChatMapping) (ex : List String) :
    ∀ (ids : List String) (acc : Nat × List Thread) (tid : String) (t : Thread),
      fetchThread acc.2 tid = some t → t.archived = false →
      ∃ t', fetchThread (ids.foldl (ensureOne mappings ex) acc).2 tid = some t'
        ∧ t'.archived = false := by
  intro ids
  induction ids with
  | nil => exact fun acc tid t h ha => ⟨t, h, ha⟩
  | cons a rest ih =>
      intro acc tid t h ha
      obtain ⟨t', h', harch⟩ := ensureOne_fetch_mono mappings ex acc a tid t h
      have ha' : t'.archived = false := by
        rcases harch with h1 | h1
        · rw [h1]; exact ha
        · exact h1
      rw [List.foldl_cons]
      exact ih _ tid t' h' ha'

lemma ensureFold_reopens (mappings : List ChatMapping) (ex : List String) :
    ∀ (ids : List String) (acc : Nat × List Thread) (c : String)
      (m : ChatMapping) (t : Thread),
      c ∈ ids → getChatMapping mappings c = some m →
      ex.contains m.threadId = false →
      fetchThread acc.2 m.threadId = some t →
      ∃ t', fetchThread (ids.foldl (ensureOne mappings ex) acc).2 m.threadId
          = some t' ∧ t'.archived = false := by
  intro ids
  induction ids with
  | nil => intro acc c m t hc; exact absurd hc (List.not_mem_nil c)
  | cons a rest ih =>
      intro acc c m t hc hm hex hf
      rw [List.foldl_cons]
      by_cases hac : a = c
      · subst hac
        have step : ∃ t', fetchThread (ensureOne mappings ex acc a).2 m.threadId
            = some t' ∧ t'.archived = false := by
          unfold ensureOne
          simp only [hm]
          rw [if_neg (fun hh => Bool.false_ne_true (hex ▸ hh))]
          simp only [hf]
          by_cases hta : t.archived = true
          · rw [if_pos hta]
            have hid : (t.id == m.threadId) = true := by
              have := List.find?_some hf
              simpa using this
            rw [fetchThread_unarchiveInList, hf]
            exact ⟨_, rfl, by simp [hid]⟩
          · rw [if_neg hta]
            exact ⟨t, hf, Bool.eq_false_iff.mpr hta⟩
        obtain ⟨t', h', ha'⟩ := step
        exact ensureFold_unarchived_mono mappings ex rest _ _ t' h' ha'
      · have hcr : c ∈ rest := by
          rcases List.mem_cons.mp hc with h1 | h1
          · exact absurd h1.symm hac
          · exact h1
        obtain ⟨t1, hf1, _⟩ := ensureOne_fetch_mono mappings ex acc a m.threadId t hf
        exact ih _ c m t1 hcr hm hex hf1

lemma mem_trulyActiveChatIds (count ms now : Nat) (ranked : List RankedChat)
    (id : String) :
    id ∈ trulyActiveChatIds count ms now ranked
      ↔ ∃ chat, chat ∈ ranked ∧ chat.chatId = id
          ∧ (chat.position < count
             ∨ ∃ v, chat.lastUpdatedAt = some v ∧ v ≠ 0 ∧ now - v < ms) := by
  unfold trulyActiveChatIds
  simp only [List.mem_map, List.mem_filter]
  constructor
  · rintro ⟨chat, ⟨hmem, hcond⟩, hid⟩
    refine ⟨chat, hmem, hid, ?_⟩
    unfold isTrulyActive at hcond
    simp only [Bool.or_eq_true, Bool.and_eq_true, decide_eq_true_eq] at hcond
    rcases hcond with h | ⟨h1, h2⟩
    · exact Or.inl h
    · right
      cases hu : chat.lastUpdatedAt with
      | none => rw [hu] at h1; exact absurd h1 (by simp [truthyTimestamp])
      | some v =>
          rw [hu] at h1 h2
          refine ⟨v, rfl, ?_, ?_⟩
          · simpa [truthyTimestamp] using h1
          · simpa using h2
  · rintro ⟨chat, hmem, hid, hcond⟩
    refine ⟨chat, ⟨hmem, ?_⟩, hid⟩
    unfold isTrulyActive
    simp only [Bool.or_eq_true, Bool.and_eq_true, decide_eq_true_eq]
    rcases hcond with h | ⟨v, hv, hv0, hvms⟩
    · exact Or.inl h
    · right
      rw [hv]
      exact ⟨by simpa [truthyTimestamp] using hv0, by simpa using hvms⟩

/-- Claim C7: the truly-active set computed on every 30th watcher tick
holds exactly the chats ranked above `implicitArchiveCount` or with a
truthy last-update within the implicit-archive window;
`ensureActiveThreadsOpen` leaves every mapped, non-explicitly-archived
thread of such a chat unarchived; and the concrete scenario (count 2,
window 1 h, recencies now / now−10 min / now−90 min / now−10 min, all
four threads archived) yields the set ["C1", "C2", "C4"], reopen count 3
and C3's thread still archived. -/
theorem claim_C7_implicitArchive :
    (∀ (count ms now : Nat) (ranked : List RankedChat) (id : String),
       id ∈ trulyActiveChatIds count ms now ranked
         ↔ ∃ chat, chat ∈ ranked ∧ chat.chatId = id
             ∧ (chat.position < count
                ∨ ∃ v, chat.lastUpdatedAt = some v ∧ v ≠ 0 ∧ now - v < ms))
    ∧ (∀ (mappings : List ChatMapping) (ex : List String) (threads : List Thread)
         (ids : List String) (c : String) (m : ChatMapping) (t : Thread),
         c ∈ ids → getChatMapping mappings c = some m →
         ex.contains m.threadId = false →
         fetchThread threads m.threadId = some t →
         ∃ t', fetchThread (ensureActiveThreadsOpen mappings ex threads ids).2
             m.threadId = some t' ∧ t'.archived = false)
    ∧ trulyActiveChatIds 2 3600000 10000000
        [⟨"C1", some 10000000, 0⟩, ⟨"C2", some 9400000, 1⟩,
         ⟨"C3", some 4600000, 2⟩, ⟨"C4", some 9400000, 3⟩]
        = ["C1", "C2", "C4"]
    ∧ (ensureActiveThreadsOpen
        [⟨"C1", "T1", "ws", 0, none⟩, ⟨"C2", "T2", "ws", 0, none⟩,
         ⟨"C3", "T3", "ws", 0, none⟩, ⟨"C4", "T4", "ws", 0, none⟩]
        []
        [⟨"T1", "one", true, 1440⟩, ⟨"T2", "two", true, 1440⟩,
         ⟨"T3", "three", true, 1440⟩, ⟨"T4", "four", true, 1440⟩]
        ["C1", "C2", "C4"]).1 = 3
    ∧ fetchThread (ensureActiveThreadsOpen
        [⟨"C1", "T1", "ws", 0, none⟩, ⟨"C2", "T2", "ws", 0, none⟩,
         ⟨"C3", "T3", "ws", 0, none⟩, ⟨"C4", "T4", "ws", 0, none⟩]
        []
        [⟨"T1", "one", true, 1440⟩, ⟨"T2", "two", true, 1440⟩,
         ⟨"T3", "three", true, 1440⟩, ⟨"T4", "four", true, 1440⟩]
        ["C1", "C2", "C4"]).2 "T3"
        = some ⟨"T3", "three", true, 1440⟩ := by
  refine ⟨mem_trulyActiveChatIds, ?_, by decide, by decide, by decide⟩
  intro mappings ex threads ids c m t hc hm hex hf
  exact ensureFold_reopens mappings ex ids (0, threads) c m t hc hm hex hf

/-- Witness for claim C7: the unarchive guarantee applied to a one-chat
world whose archived thread ends up open. -/
theorem claim_C7_witness :
    ("C1" ∈ ["C1"])
    ∧ ∃ t', fetchThread (ensureActiveThreadsOpen
          [⟨"C1", "T1", "ws", 0, none⟩] [] [⟨"T1", "one", true, 1440⟩]
          ["C1"]).2 "T1" = some t' ∧ t'.archived = false :=
  ⟨by decide,
   claim_C7_implicitArchive.2.1 [⟨"C1", "T1", "ws", 0, none⟩] []
     [⟨"T1", "one", true, 1440⟩] ["C1"] "C1" ⟨"C1", "T1", "ws", 0, none⟩
     ⟨"T1", "one", true, 1440⟩ (by decide) rfl (by decide) rfl⟩

/-! ### Lemmas for the name-sync watcher (claim C6) -/

lemma lookupA_setA_other {α : Type} (l : List (String × α)) (k c : String)
    (v : α) (hne : c ≠ k) : lookupA (setA l k v) c = lookupA l c := by
  unfold lookupA setA
  by_cases h : l.any (fun p => p.1 == k) = true
  · rw [if_pos h]
    exact congrArg (Option.map (fun p => p.2))
      (find?_map_replace_other (fun p : String × α => p.1) k c (k, v) rfl hne l)
  · rw [if_neg h]
    exact congrArg (Option.map (fun p => p.2))
      (find?_append_single_other (fun p : String × α => p.1) k c (k, v) rfl hne l)

lemma syncOne_stale (cn : List (String × String)) (ro : String → RenameOutcome)
    (acc : List (String × String) × List (String × String))
    (e : String × String) (c : String)
    (h : cacheIsStaleAt acc.1 c = true) :
    lookupA (syncOne cn ro acc e).1 c = lookupA acc.1 c
    ∧ ((syncOne cn ro acc e).2 = acc.2
       ∨ ∃ nm, (syncOne cn ro acc e).2 = acc.2 ++ [(e.2, nm)] ∧ e.1 ≠ c) := by
  unfold syncOne
  cases hcur : lookupA cn e.1 with
  | none => exact ⟨rfl, Or.inl rfl⟩
  | some cur =>
      simp only
      by_cases h0 : (cur == "") = true
      · rw [if_pos h0]
        exact ⟨rfl, Or.inl rfl⟩
      · rw [if_neg h0]
        by_cases hec : e.1 = c
        · rw [if_pos (by rw [hec]; exact h)]
          exact ⟨rfl, Or.inl rfl⟩
        · by_cases hst : cacheIsStaleAt acc.1 e.1 = true
          · rw [if_pos hst]
            exact ⟨rfl, Or.inl rfl⟩
          · rw [if_neg hst]
            by_cases hns : needsSyncB (lookupA acc.1 e.1) cur = true
            · rw [if_pos hns]
              cases hro : ro e.2 with
              | ok =>
                  exact ⟨lookupA_setA_other acc.1 e.1 c cur (fun hh => hec hh.symm),
                    Or.inr ⟨cur, rfl, hec⟩⟩
              | notFound =>
                  exact ⟨lookupA_setA_other acc.1 e.1 c cur (fun hh => hec hh.symm),
                    Or.inr ⟨cur, rfl, hec⟩⟩
              | otherFailure =>
                  exact ⟨rfl, Or.inr ⟨cur, rfl, hec⟩⟩
            · rw [if_neg hns]
              exact ⟨rfl, Or.inl rfl⟩

lemma syncLoopGo_stale (cn : List (String × String)) (ro : String → RenameOutcome)
    (c t : String) :
    ∀ (ms : List (String × String))
      (acc : List (String × String) × List (String × String)),
      cacheIsStaleAt acc.1 c = true →
      (∀ c', (c', t) ∈ ms → c' = c) →
      (∀ nm, (t, nm) ∉ acc.2) →
      lookupA (syncLoopGo cn ro acc ms).1 c = lookupA acc.1 c
      ∧ ∀ nm, (t, nm) ∉ (syncLoopGo cn ro acc ms).2 := by
  intro ms
  induction ms with
  | nil => intro acc _ _ hr; exact ⟨rfl, hr⟩
  | cons e rest ih =>
      intro acc h howner hr
      obtain ⟨h1, h2⟩ := syncOne_stale cn ro acc e c h
      have hstale' : cacheIsStaleAt (syncOne cn ro acc e).1 c = true := by
        unfold cacheIsStaleAt at h ⊢
        rw [h1]
        exact h
      have hr' : ∀ nm, (t, nm) ∉ (syncOne cn ro acc e).2 := by
        rcases h2 with heq | ⟨nm0, heq, hne⟩
        · rw [heq]; exact hr
        · rw [heq]
          intro nm hmem
          rcases List.mem_append.mp hmem with h3 | h3
          · exact hr nm h3
          · have h4 : (t, nm) = (e.2, nm0) := List.mem_singleton.mp h3
            have h5 : e.2 = t := (congrArg Prod.fst h4).symm
            have h7 : (e.1, t) = e := by rw [← h5]
            have h6 : e.1 = c := by
              apply howner
              rw [h7]
              exact List.mem_cons_self e rest
            exact hne h6
      rw [syncLoopGo]
      obtain ⟨g1, g2⟩ := ih (syncOne cn ro acc e) hstale'
        (fun c' hm => howner c' (List.mem_cons_of_mem _ hm)) hr'
      exact ⟨by rw [g1, h1], g2⟩

lemma refreshCache_stale (c : String) :
    ∀ (cn cache : List (String × String)), cacheIsStaleAt cache c = true →
      lookupA (refreshCache cache cn) c = lookupA cache c := by
  intro cn
  induction cn with
  | nil => intro cache _; rfl
  | cons e rest ih =>
      intro cache h
      rw [refreshCache]
      by_cases hst : cacheIsStaleAt cache e.1 = true
      · rw [if_pos hst]
        exact ih cache h
      · rw [if_neg hst]
        have hec : e.1 ≠ c := fun hh => hst (by rw [hh]; exact h)
        have hpres : lookupA (setA cache e.1 e.2) c = lookupA cache c :=
          lookupA_setA_other cache e.1 c e.2 (fun hh => hec hh.symm)
        have hstale' : cacheIsStaleAt (setA cache e.1 e.2) c = true := by
          unfold cacheIsStaleAt at h ⊢
          rw [hpres]
          exact h
        rw [ih _ hstale', hpres]

lemma initCacheGo_stale_preserved (dn : List (String × String)) (c : String) :
    ∀ (ms cache : List (String × String)),
      lookupA cache c = some (staleMarker c) →
      lookupA (initCacheGo dn cache ms) c = some (staleMarker c) := by
  intro ms
  induction ms with
  | nil => intro cache h; exact h
  | cons e rest ih =>
      intro cache h
      rw [initCacheGo]
      apply ih
      cases hd : lookupA dn e.1 with
      | some v => exact h
      | none =>
          by_cases hec : e.1 = c
          · rw [hec]
            exact lookupA_setA_self cache c (staleMarker c)
          · exact (lookupA_setA_other cache e.1 c (staleMarker e.1)
              (fun hh => hec hh.symm)).trans h

lemma initCacheGo_stale (dn : List (String × String)) (c t : String) :
    ∀ (ms cache : List (String × String)),
      (c, t) ∈ ms → lookupA dn c = none →
      lookupA (initCacheGo dn cache ms) c = some (staleMarker c) := by
  intro ms
  induction ms with
  | nil => intro cache h; exact absurd h (List.not_mem_nil _)
  | cons e rest ih =>
      intro cache hmem hd
      rw [initCacheGo]
      rcases List.mem_cons.mp hmem with heq | hmem'
      · have he1 : e.1 = c := by rw [← heq]
        have hde : lookupA dn e.1 = none := by rw [he1]; exact hd
        apply initCacheGo_stale_preserved
        rw [hde, he1]
        exact lookupA_setA_self cache c (staleMarker c)
      · exact ih _ hmem' hd

lemma refreshCache_value (c n : String) (hn : isStaleName n = false) :
    ∀ (cn cache : List (String × String)),
      lookupA cache c = some n → (∀ v, (c, v) ∈ cn → v = n) →
      lookupA (refreshCache cache cn) c = some n := by
  intro cn
  induction cn with
  | nil => intro cache h _; exact h
  | cons e rest ih =>
      intro cache h hv
      rw [refreshCache]
      by_cases hec : e.1 = c
      · have hvn : e.2 = n := by
          apply hv
          have h7 : (c, e.2) = e := by rw [← hec]
          rw [h7]
          exact List.mem_cons_self e rest
        have hst : cacheIsStaleAt cache e.1 = false := by
          unfold cacheIsStaleAt
          rw [hec, h]
          exact hn
        rw [if_neg (fun hh => Bool.false_ne_true (hst ▸ hh))]
        apply ih
        · rw [hec, hvn]
          exact lookupA_setA_self cache c n
        · exact fun v hm => hv v (List.mem_cons_of_mem _ hm)
      · by_cases hst : cacheIsStaleAt cache e.1 = true
        · rw [if_pos hst]
          exact ih cache h (fun v hm => hv v (List.mem_cons_of_mem _ hm))
        · rw [if_neg hst]
          apply ih
          · rw [lookupA_setA_other cache e.1 c e.2 (fun hh => hec hh.symm)]
            exact h
          · exact fun v hm => hv v (List.mem_cons_of_mem _ hm)

/-- Claim C6 (amended): initialization stamps the stale sentinel for every
mapping whose thread is not fetchable; a stale cache entry makes every
sync pass skip the mapping — its thread is never renamed and the sentinel
is never overwritten; but on a not-found rename failure the cache entry
is set to the plain current name, not a stale sentinel, which stops
retries only while the name stays unchanged. -/
theorem claim_C6_nameSync :
    (∀ (mappings dn : List (String × String)) (c t : String),
       (c, t) ∈ mappings → lookupA dn c = none →
       lookupA (initializeCacheFromDiscord mappings dn) c = some (staleMarker c))
    ∧ (∀ (mappings cn cache : List (String × String))
         (ro : String → RenameOutcome) (c t n : String),
         lookupA cache c = some n → isStaleName n = true →
         (∀ c', (c', t) ∈ mappings → c' = c) →
         lookupA (checkAndSyncNames mappings cn cache ro).1 c = some n
         ∧ ∀ nm, (t, nm) ∉ (checkAndSyncNames mappings cn cache ro).2)
    ∧ (∀ (cn cache : List (String × String)) (ro : String → RenameOutcome)
         (c t n cached : String),
         lookupA cn c = some n → (n == "") = false → isStaleName n = false →
         (n == TEMPORARY_THREAD_NAME) = false →
         lookupA cache c = some cached → isStaleName cached = false →
         (cached == n) = false →
         (∀ v, (c, v) ∈ cn → v = n) →
         ro t = RenameOutcome.notFound →
         (checkAndSyncNames [(c, t)] cn cache ro).2 = [(t, n)]
         ∧ lookupA (checkAndSyncNames [(c, t)] cn cache ro).1 c = some n
         ∧ ∀ ro2, (checkAndSyncNames [(c, t)] cn
             ((checkAndSyncNames [(c, t)] cn cache ro).1) ro2).2 = []) := by
  refine ⟨?_, ?_, ?_⟩
  · intro mappings dn c t hmem hd
    exact initCacheGo_stale dn c t mappings dn hmem hd
  · intro mappings cn cache ro c t n hlook hstale howner
    have hstale0 : cacheIsStaleAt cache c = true := by
      unfold cacheIsStaleAt
      rw [hlook]
      exact hstale
    obtain ⟨g1, g2⟩ := syncLoopGo_stale cn ro c t mappings (cache, []) hstale0
      howner (fun nm hm => absurd hm (List.not_mem_nil _))
    have g1' : lookupA (syncLoopGo cn ro (cache, []) mappings).1 c = some n := by
      rw [g1]
      exact hlook
    have hstale2 : cacheIsStaleAt (syncLoopGo cn ro (cache, []) mappings).1 c
        = true := by
      unfold cacheIsStaleAt
      rw [g1']
      exact hstale
    constructor
    · show lookupA (refreshCache (syncLoopGo cn ro (cache, []) mappings).1 cn) c
        = some n
      rw [refreshCache_stale c cn _ hstale2]
      exact g1'
    · show ∀ nm, (t, nm) ∉ (syncLoopGo cn ro (cache, []) mappings).2
      exact g2
  · intro cn cache ro c t n cached hcn hne hstn hTEMP hcache hstcached hcne hv hro
    have hstc : cacheIsStaleAt cache c = false := by
      unfold cacheIsStaleAt
      rw [hcache]
      exact hstcached
    have hns : needsSyncB (lookupA cache c) n = true := by
      rw [hcache]
      show (!(cached == n) || (cached == TEMPORARY_THREAD_NAME) || (cached == ""))
        = true
      rw [hcne]
      rfl
    have e1 : syncLoopGo cn ro (cache, []) [(c, t)] = (setA cache c n, [(t, n)]) := by
      rw [syncLoopGo, syncLoopGo]
      unfold syncOne
      simp only [hcn]
      rw [if_neg (fun hh => Bool.false_ne_true (hne ▸ hh))]
      rw [if_neg (fun hh => Bool.false_ne_true (hstc ▸ hh))]
      rw [if_pos hns]
      simp only [hro]
      rfl
    have part1 : (checkAndSyncNames [(c, t)] cn cache ro).2 = [(t, n)] := by
      show (syncLoopGo cn ro (cache, []) [(c, t)]).2 = [(t, n)]
      rw [e1]
    have part2 : lookupA (checkAndSyncNames [(c, t)] cn cache ro).1 c = some n := by
      show lookupA (refreshCache (syncLoopGo cn ro (cache, []) [(c, t)]).1 cn) c
        = some n
      rw [e1]
      exact refreshCache_value c n hstn cn (setA cache c n)
        (lookupA_setA_self cache c n) hv
    refine ⟨part1, part2, ?_⟩
    intro ro2
    have hst' : cacheIsStaleAt ((checkAndSyncNames [(c, t)] cn cache ro).1) c
        = false := by
      unfold cacheIsStaleAt
      rw [part2]
      exact hstn
    have hns2 : needsSyncB (lookupA ((checkAndSyncNames [(c, t)] cn cache ro).1) c)
        n = false := by
      rw [part2]
      show (!(n == n) || (n == TEMPORARY_THREAD_NAME) || (n == "")) = false
      rw [beq_self_eq_true, hTEMP, hne]
      rfl
    show (syncLoopGo cn ro2 ((checkAndSyncNames [(c, t)] cn cache ro).1, [])
        [(c, t)]).2 = []
    rw [syncLoopGo, syncLoopGo]
    unfold syncOne
    simp only [hcn]
    rw [if_neg (fun hh => Bool.false_ne_true (hne ▸ hh))]
    rw [if_neg (fun hh => Bool.false_ne_true (hst' ▸ hh))]
    rw [if_neg (fun hh => Bool.false_ne_true (hns2 ▸ hh))]

/-- Counterexample for claim C6 as stated: after a not-found rename
failure the cache holds the plain current name, not a stale sentinel, and
the rename was attempted. -/
theorem claim_C6_counterexample :
    lookupA (checkAndSyncNames [("c1", "t1")] [("c1", "New")] [("c1", "Old")]
        (fun _ => RenameOutcome.notFound)).1 "c1" = some "New"
    ∧ isStaleName "New" = false
    ∧ (checkAndSyncNames [("c1", "t1")] [("c1", "New")] [("c1", "Old")]
        (fun _ => RenameOutcome.notFound)).2 = [("t1", "New")] := by
  decide

/-- Witness for claim C6: a stale-marked mapping survives a sync pass
untouched and its thread is not renamed. -/
theorem claim_C6_witness :
    lookupA (checkAndSyncNames [("c2", "t2")] [("c2", "Rename")]
        [("c2", staleMarker "c2")] (fun _ => RenameOutcome.ok)).1 "c2"
      = some (staleMarker "c2")
    ∧ ("t2", "Rename") ∉ (checkAndSyncNames [("c2", "t2")] [("c2", "Rename")]
        [("c2", staleMarker "c2")] (fun _ => RenameOutcome.ok)).2 := by
  have howner : ∀ c', (c', "t2") ∈ ([("c2", "t2")] : List (String × String)) →
      c' = "c2" := by
    intro c' hm
    have h4 : (c', "t2") = ("c2", "t2") := List.mem_singleton.mp hm
    exact congrArg Prod.fst h4
  have h := claim_C6_nameSync.2.1 [("c2", "t2")] [("c2", "Rename")]
    [("c2", staleMarker "c2")] (fun _ => RenameOutcome.ok) "c2" "t2"
    (staleMarker "c2") (by decide) (by decide) howner
  exact ⟨h.1, h.2 "Rename"⟩

/-! ### Lemmas for thread-id resolution (claim C1) -/

lemma recentUnclaimedGo_sound (now fm : Nat) :
    ∀ (ms : List ChatMapping) (latest : Option ChatMapping) (lt : Nat)
      (m : ChatMapping),
      recentUnclaimedGo now fm ms latest lt = some m →
      (m ∈ ms ∧ m.claimedAt = none ∧ now - m.createdAt ≤ fm) ∨ latest = some m := by
  intro ms
  induction ms with
  | nil => intro latest lt m h; exact Or.inr h
  | cons x rest ih =>
      intro latest lt m h
      rw [recentUnclaimedGo] at h
      by_cases h1 : x.claimedAt.isSome = true
      · rw [if_pos h1] at h
        rcases ih latest lt m h with ⟨hm, hc, hf⟩ | he
        · exact Or.inl ⟨List.mem_cons_of_mem _ hm, hc, hf⟩
        · exact Or.inr he
      · rw [if_neg h1] at h
        by_cases h2 : now - x.createdAt > fm
        · rw [if_pos h2] at h
          rcases ih latest lt m h with ⟨hm, hc, hf⟩ | he
          · exact Or.inl ⟨List.mem_cons_of_mem _ hm, hc, hf⟩
          · exact Or.inr he
        · rw [if_neg h2] at h
          by_cases h3 : x.createdAt > lt
          · rw [if_pos h3] at h
            rcases ih (some x) x.createdAt m h with ⟨hm, hc, hf⟩ | he
            · exact Or.inl ⟨List.mem_cons_of_mem _ hm, hc, hf⟩
            · left
              have hx : x = m := Option.some.inj he
              subst hx
              exact ⟨List.mem_cons_self _ _,
                Option.not_isSome_iff_eq_none.mp h1, Nat.le_of_not_lt h2⟩
          · rw [if_neg h3] at h
            rcases ih latest lt m h with ⟨hm, hc, hf⟩ | he
            · exact Or.inl ⟨List.mem_cons_of_mem _ hm, hc, hf⟩
            · exact Or.inr he

lemma recentUnclaimedGo_gt (now fm : Nat) :
    ∀ (ms : List ChatMapping) (latest : Option ChatMapping) (lt : Nat)
      (m : ChatMapping),
      recentUnclaimedGo now fm ms latest lt = some m →
      latest = some m ∨ m.createdAt > lt := by
  intro ms
  induction ms with
  | nil => intro latest lt m h; exact Or.inl h
  | cons x rest ih =>
      intro latest lt m h
      rw [recentUnclaimedGo] at h
      by_cases h1 : x.claimedAt.isSome = true
      · rw [if_pos h1] at h; exact ih latest lt m h
      · rw [if_neg h1] at h
        by_cases h2 : now - x.createdAt > fm
        · rw [if_pos h2] at h; exact ih latest lt m h
        · rw [if_neg h2] at h
          by_cases h3 : x.createdAt > lt
          · rw [if_pos h3] at h
            rcases ih (some x) x.createdAt m h with he | hgt
            · right
              have hx : x = m := Option.some.inj he
              subst hx
              exact h3
            · exact Or.inr (Nat.lt_trans h3 hgt)
          · rw [if_neg h3] at h; exact ih latest lt m h

lemma recentUnclaimedGo_newest (now fm : Nat) :
    ∀ (ms : List ChatMapping) (latest : Option ChatMapping) (lt : Nat)
      (m : ChatMapping),
      recentUnclaimedGo now fm ms latest lt = some m →
      ∀ m', m' ∈ ms → m'.claimedAt = none → now - m'.createdAt ≤ fm →
      m'.createdAt ≤ m.createdAt ∨ m'.createdAt ≤ lt := by
  intro ms
  induction ms with
  | nil => intro latest lt m h m' hm'; exact absurd hm' (List.not_mem_nil _)
  | cons x rest ih =>
      intro latest lt m h m' hm' hc' hf'
      rw [recentUnclaimedGo] at h
      by_cases h1 : x.claimedAt.isSome = true
      · rw [if_pos h1] at h
        rcases List.mem_cons.mp hm' with he | hr
        · subst he
          rw [hc'] at h1
          exact absurd h1 (by simp)
        · exact ih latest lt m h m' hr hc' hf'
      · rw [if_neg h1] at h
        by_cases h2 : now - x.createdAt > fm
        · rw [if_pos h2] at h
          rcases List.mem_cons.mp hm' with he | hr
          · subst he
            exact absurd hf' (Nat.not_le_of_lt h2)
          · exact ih latest lt m h m' hr hc' hf'
        · rw [if_neg h2] at h
          by_cases h3 : x.createdAt > lt
          · rw [if_pos h3] at h
            have hxm : x.createdAt ≤ m.createdAt := by
              rcases recentUnclaimedGo_gt now fm rest (some x) x.createdAt m h
                with he | hgt
              · exact Nat.le_of_eq (congrArg ChatMapping.createdAt
                  (Option.some.inj he))
              · exact Nat.le_of_lt hgt
            rcases List.mem_cons.mp hm' with he | hr
            · subst he
              exact Or.inl hxm
            · rcases ih (some x) x.createdAt m h m' hr hc' hf' with hle | hle
              · exact Or.inl hle
              · exact Or.inl (Nat.le_trans hle hxm)
          · rw [if_neg h3] at h
            rcases List.mem_cons.mp hm' with he | hr
            · subst he
              exact Or.inr (Nat.le_of_not_lt h3)
            · exact ih latest lt m h m' hr hc' hf'

lemma getRecentUnclaimed_spec (now fm : Nat) (ms : List ChatMapping)
    (m : ChatMapping) (h : getRecentUnclaimedMapping now fm ms = some m) :
    m ∈ ms ∧ m.claimedAt = none ∧ now - m.createdAt ≤ fm
    ∧ ∀ m', m' ∈ ms → m'.claimedAt = none → now - m'.createdAt ≤ fm →
        m'.createdAt ≤ m.createdAt := by
  unfold getRecentUnclaimedMapping at h
  rcases recentUnclaimedGo_sound now fm ms none 0 m h with ⟨hm, hc, hf⟩ | he
  · refine ⟨hm, hc, hf, ?_⟩
    intro m' hm' hc' hf'
    rcases recentUnclaimedGo_newest now fm ms none 0 m h m' hm' hc' hf' with hle | hle
    · exact hle
    · exact Nat.le_trans hle (Nat.zero_le _)
  · exact absurd he (by simp)

lemma waitForNewUnclaimed_sound (fm : Nat)
    (snapshots : List (Nat × List ChatMapping)) (n : Nat)
    (reg : List ChatMapping) (m : ChatMapping)
    (h : waitForNewUnclaimedMapping fm snapshots = some (n, reg, m)) :
    (n, reg) ∈ snapshots ∧ getRecentUnclaimedMapping n fm reg = some m := by
  unfold waitForNewUnclaimedMapping at h
  obtain ⟨s, hs, hf⟩ := List.exists_of_findSome?_eq_some h
  cases hg : getRecentUnclaimedMapping s.1 fm s.2 with
  | none =>
      rw [hg] at hf
      exact absurd hf (by simp)
  | some m0 =>
      rw [hg] at hf
      have h3 : (s.1, s.2, m0) = (n, reg, m) := by simpa using hf
      have h1 : s.1 = n := congrArg (fun q => q.1) h3
      have h2 : s.2 = reg := congrArg (fun q => q.2.1) h3
      have h4 : m0 = m := congrArg (fun q => q.2.2) h3
      constructor
      · have h5 : s = (n, reg) := by
          rw [← h1, ← h2]
        rw [← h5]
        exact hs
      · rw [← h1, ← h2, ← h4]
        exact hg

lemma createThread_fresh (w : DiscordWorld) (now : Nat) (newId : String)
    (p : CreateThreadParams) (s : String) (hch : w.hasChannel = true)
    (hmap : getChatMapping w.mappings p.chatId = none)
    (hname : p.name = some s) (hs : (s == "") = false) :
    createThread w now newId true p
      = ({ success := true, threadId := some newId,
           threadName := some (s.take 100), error := none },
         { hasChannel := w.hasChannel,
           threads := w.threads ++
             [{ id := newId, name := s.take 100, archived := false, autoArchiveDuration := 10080 }],
           mappings := setChatMapping w.mappings
             { chatId := p.chatId, threadId := newId,
               workspaceName := p.workspaceName, createdAt := now,
               claimedAt := none },
           threadLastActivity := setA w.threadLastActivity newId now },
         [Effect.createdThread newId (s.take 100), Effect.invitedUsers newId,
          Effect.postedWelcome newId]) := by
  unfold createThread
  rw [if_neg (fun hh => absurd (hch ▸ hh) (by decide))]
  simp only [hmap]
  unfold createThread.createThreadFresh generateThreadName
  simp only [hname]
  rw [if_neg (fun hh => Bool.false_ne_true (hs ▸ hh))]
  rfl

lemma createThreadForChat_fresh (w : DiscordWorld) (now : Nat) (newId : String)
    (ws chatId nm : String) (hch : w.hasChannel = true)
    (hmap : getChatMapping w.mappings chatId = none) (hnm : (nm == "") = false) :
    createThreadForChat w now newId true true ws chatId nm
      = (some newId,
         { hasChannel := w.hasChannel,
           threads := w.threads ++
             [{ id := newId, name := nm.take 100, archived := false, autoArchiveDuration := 10080 }],
           mappings := setChatMapping w.mappings
             { chatId := chatId, threadId := newId, workspaceName := ws,
               createdAt := now, claimedAt := none },
           threadLastActivity := setA w.threadLastActivity newId now }) := by
  have hcreate := createThread_fresh w now newId
    { chatId := chatId, workspaceName := ws, name := some nm } nm hch hmap rfl hnm
  unfold createThreadForChat
  rw [if_neg (by decide)]
  rw [if_neg (fun hh => Bool.false_ne_true (hnm ▸ hh))]
  rw [hcreate]
  rfl

/-- Claim C1: with a pending composer not yet in the registry, the
handler force-creates a thread under the IDE name or the placeholder
`New conversation` and returns it as `waited_for_new`, the new mapping
immediately claimed; with no pending composer, a fresh (≤ 30 s) unclaimed
mapping of maximal creation time is returned as `latest_unclaimed` and
claimed; otherwise the first polled fresh unclaimed mapping is returned
as `waited_for_new` and claimed.  Every returned mapping is unclaimed at
selection and at most 30 s old there, so a 30 s + 1 ms-old mapping is
never returned. -/
theorem claim_C1_resolveThreadId (w : DiscordWorld) (d : ResolveDeps) :
    (∀ p, d.pendingComposerId = some p →
       getChatMapping w.mappings p = none →
       w.hasChannel = true → d.ready = true → d.createOk1 = true →
       fetchThread w.threads d.newId1 = none →
       (jsOrString d.immediateName "New conversation" == "") = false →
       (resolveThreadId w d).1
         = { success := true, threadId := some d.newId1, chatId := some p,
             method := some ThreadResolutionMethod.waited_for_new, error := none }
       ∧ getChatMapping (resolveThreadId w d).2.mappings p
           = some { chatId := p, threadId := d.newId1,
                    workspaceName := d.workspaceName, createdAt := d.now,
                    claimedAt := some d.claimNow }
       ∧ fetchThread (resolveThreadId w d).2.threads d.newId1
           = some { id := d.newId1, name := (jsOrString d.immediateName "New conversation").take 100, archived := false, autoArchiveDuration := 10080 })
    ∧ (∀ m, d.pendingComposerId = none →
       getRecentUnclaimedMapping d.now 30000 w.mappings = some m →
       getChatMapping w.mappings m.chatId = some m →
       (resolveThreadId w d).1
         = { success := true, threadId := some m.threadId, chatId := some m.chatId,
             method := some ThreadResolutionMethod.latest_unclaimed, error := none }
       ∧ m ∈ w.mappings ∧ m.claimedAt = none ∧ d.now - m.createdAt ≤ 30000
       ∧ (∀ m', m' ∈ w.mappings → m'.claimedAt = none →
            d.now - m'.createdAt ≤ 30000 → m'.createdAt ≤ m.createdAt)
       ∧ getChatMapping (resolveThreadId w d).2.mappings m.chatId
           = some { m with claimedAt := some d.claimNow })
    ∧ (∀ n reg m, d.pendingComposerId = none →
       getRecentUnclaimedMapping d.now 30000 w.mappings = none →
       waitForNewUnclaimedMapping 30000 d.snapshots = some (n, reg, m) →
       getChatMapping reg m.chatId = some m →
       (resolveThreadId w d).1
         = { success := true, threadId := some m.threadId, chatId := some m.chatId,
             method := some ThreadResolutionMethod.waited_for_new, error := none }
       ∧ (n, reg) ∈ d.snapshots ∧ m ∈ reg ∧ m.claimedAt = none
       ∧ n - m.createdAt ≤ 30000
       ∧ getChatMapping (resolveThreadId w d).2.mappings m.chatId
           = some { m with claimedAt := some d.claimNow }) := by
  refine ⟨?_, ?_, ?_⟩
  · intro p hp hmap hch hready hok hfresh hnm
    have hcreate := createThreadForChat_fresh w d.now d.newId1 d.workspaceName p
      (jsOrString d.immediateName "New conversation") hch hmap hnm
    simp only [resolveThreadId, hp, hready, hok]
    rw [hcreate]
    simp only
    refine ⟨trivial, ?_, ?_⟩
    · have h1 : getChatMapping (setChatMapping w.mappings
          ⟨p, d.newId1, d.workspaceName, d.now, none⟩) p
          = some ⟨p, d.newId1, d.workspaceName, d.now, none⟩ :=
        getChatMapping_setChatMapping_self _ _
      unfold markMappingClaimed
      simp only [h1]
      rw [if_pos trivial]
      exact getChatMapping_setChatMapping_self _ _
    · show fetchThread (w.threads ++
          [{ id := d.newId1, name := (jsOrString d.immediateName "New conversation").take 100, archived := false, autoArchiveDuration := 10080 }]) d.newId1 = _
      unfold fetchThread at hfresh ⊢
      rw [List.find?_append, hfresh]
      have h2 : List.find? (fun t => t.id == d.newId1)
          [({ id := d.newId1, name := (jsOrString d.immediateName "New conversation").take 100, archived := false, autoArchiveDuration := 10080 } : Thread)]
          = some { id := d.newId1, name := (jsOrString d.immediateName "New conversation").take 100, archived := false, autoArchiveDuration := 10080 } :=
        List.find?_cons_of_pos _ (beq_self_eq_true d.newId1)
      rw [h2]
      rfl
  · intro m hp hrec hget
    obtain ⟨hmem, hclaim, hfresh30, hmax⟩ :=
      getRecentUnclaimed_spec d.now 30000 w.mappings m hrec
    simp only [resolveThreadId, hp, resolveStrategy23, hrec]
    refine ⟨trivial, hmem, hclaim, hfresh30, hmax, ?_⟩
    unfold markMappingClaimed
    simp only [hget, hclaim]
    rw [if_pos trivial]
    exact getChatMapping_setChatMapping_self _ _
  · intro n reg m hp hrecnone hwait hget
    obtain ⟨hsnap, hrec⟩ := waitForNewUnclaimed_sound 30000 d.snapshots n reg m hwait
    obtain ⟨hmem, hclaim, hfresh30, _⟩ :=
      getRecentUnclaimed_spec n 30000 reg m hrec
    simp only [resolveThreadId, hp, resolveStrategy23, hrecnone, hwait]
    refine ⟨trivial, hsnap, hmem, hclaim, hfresh30, ?_⟩
    unfold markMappingClaimed
    simp only [hget, hclaim]
    rw [if_pos trivial]
    exact getChatMapping_setChatMapping_self _ _

/-- Witness for claim C1: strategy 2 on a one-mapping registry returns
the fresh unclaimed mapping as latest_unclaimed and claims it. -/
theorem claim_C1_witness :
    (resolveThreadId
        { hasChannel := true, threads := [],
          mappings := [⟨"c9", "t9", "ws", 100, none⟩], threadLastActivity := [] }
        { pendingComposerId := none, immediateName := none, waitedName := none,
          ready := true, createOk1 := true, createOk2 := true, newId1 := "x",
          newId2 := "y", workspaceName := "ws", now := 200, claimNow := 300,
          snapshots := [] }).1
      = { success := true, threadId := some "t9", chatId := some "c9",
          method := some ThreadResolutionMethod.latest_unclaimed, error := none }
    ∧ getChatMapping (resolveThreadId
        { hasChannel := true, threads := [],
          mappings := [⟨"c9", "t9", "ws", 100, none⟩], threadLastActivity := [] }
        { pendingComposerId := none, immediateName := none, waitedName := none,
          ready := true, createOk1 := true, createOk2 := true, newId1 := "x",
          newId2 := "y", workspaceName := "ws", now := 200, claimNow := 300,
          snapshots := [] }).2.mappings "c9"
      = some ⟨"c9", "t9", "ws", 100, some 300⟩ := by
  have h := (claim_C1_resolveThreadId
      { hasChannel := true, threads := [],
        mappings := [⟨"c9", "t9", "ws", 100, none⟩], threadLastActivity := [] }
      { pendingComposerId := none, immediateName := none, waitedName := none,
        ready := true, createOk1 := true, createOk2 := true, newId1 := "x",
        newId2 := "y", workspaceName := "ws", now := 200, claimNow := 300,
        snapshots := [] }).2.1
    ⟨"c9", "t9", "ws", 100, none⟩ rfl (by decide) (by decide)
  exact ⟨h.1, h.2.2.2.2.2⟩

end Bridge
